import Mathlib

/-!
Verification of the core of the Desertscapes dune simulator
(Code/Source/desert-simulation.cpp and Code/Include/desert.h).

The simulator state is a set of scalar fields over a 2D grid together with a
global wind vector.  Machine floats are modelled as real numbers.  Cells are
indexed by pairs of integers; the C++ code stores fields in flat row-major
arrays addressed through ToIndex1D, which is a bijection between in-range
cells and array indices, so fields are modelled directly as functions from
cell coordinates to reals.

The vector/field utility layer (basics.h: Vector2, Math, Box2D, ScalarField2D)
and the stabilization routines (CheckSedimentFlowRelative,
StabilizeSedimentRelative, StabilizeBedrockAll) are declared in desert.h but
their bodies are not part of the four source files; those pieces are modelled
from the specification, as marked in the individual doc comments.
-/

namespace Desertscape

noncomputable section

open Real

/-- Two dimensional vector of reals, modelling Vector2 of basics.h. -/
@[ext]
structure Vec2 where
  x : ℝ
  y : ℝ

instance : DecidableEq Vec2 := fun a b =>
  decidable_of_iff (a.x = b.x ∧ a.y = b.y) (Vec2.ext_iff).symm

/-- Componentwise vector addition. -/
def vadd (a b : Vec2) : Vec2 := ⟨a.x + b.x, a.y + b.y⟩

/-- Componentwise vector subtraction. -/
def vsub (a b : Vec2) : Vec2 := ⟨a.x - b.x, a.y - b.y⟩

/-- Vector negation. -/
def vneg (a : Vec2) : Vec2 := ⟨-a.x, -a.y⟩

/-- Scalar multiplication of a vector. -/
def smul (c : ℝ) (a : Vec2) : Vec2 := ⟨c * a.x, c * a.y⟩

/-- The zero vector, Vector2(0.0f). -/
def vzero : Vec2 := ⟨0, 0⟩

/-- Dot product, modelling Dot of basics.h. -/
def Dot (a b : Vec2) : ℝ := a.x * b.x + a.y * b.y

/-- Squared euclidean norm, modelling SquaredMagnitude of basics.h. -/
def SquaredMagnitude (a : Vec2) : ℝ := a.x * a.x + a.y * a.y

/-- Euclidean norm, modelling Magnitude of basics.h. -/
def Magnitude (a : Vec2) : ℝ := Real.sqrt (SquaredMagnitude a)

/-- Modelled from the spec: Normalize of basics.h divides a vector by its
euclidean norm. -/
def Normalize (a : Vec2) : Vec2 := ⟨a.x / Magnitude a, a.y / Magnitude a⟩

/-- Modelled from the spec: Math.Clamp with explicit bounds; values below a
are raised to a, values above b lowered to b. -/
def clamp (x a b : ℝ) : ℝ := max a (min b x)

/-- Modelled from the spec: the one-argument Math.Clamp clamps to [0, 1]. -/
def clamp01 (x : ℝ) : ℝ := clamp x 0 1

/-- Integer clamp, Math.Clamp on int used for the bounce count. -/
def clampI (x a b : ℤ) : ℤ := max a (min b x)

/-- Modelled from the spec: Math.Lerp, linear interpolation a + t (b - a). -/
def lerp (a b t : ℝ) : ℝ := a + t * (b - a)

/-- Componentwise linear interpolation of vectors (Math.Lerp on Vector2). -/
def lerpV (a b : Vec2) (t : ℝ) : Vec2 := ⟨lerp a.x b.x t, lerp a.y b.y t⟩

/-- Modelled from the spec: Math.Step maps x through a smoothstep with lower
edge a and upper edge b (section 4.3 of the spec). -/
def smoothstep (x a b : ℝ) : ℝ :=
  let u := clamp01 ((x - a) / (b - a))
  u * u * (3 - 2 * u)

/-- Sediment repose threshold, tan of about 33 degrees (desert.h). -/
def tanThresholdAngleSediment : ℝ := 0.60

/-- Lower wind-shadow threshold stored in desert.h, commented as about 5
degrees. -/
def tanThresholdAngleWindShadowMin : ℝ := 0.08

/-- Upper wind-shadow threshold stored in desert.h, commented as about 15
degrees. -/
def tanThresholdAngleWindShadowMax : ℝ := 0.26

/-- Bedrock repose threshold, tan of about 68 degrees (desert.h). -/
def tanThresholdAngleBedrock : ℝ := 2.5

/-- Abrasion strength constant (file scope in desert-simulation.cpp). -/
def abrasionEpsilon : ℝ := 0.5

/-- Maximum number of saltation bounces (macro in desert-simulation.cpp). -/
def MAX_BOUNCE : ℕ := 3

/-- Wind shadow search radius used by IsInShadow. -/
def rShadow : ℝ := 10

/-- Squared reptation radius, 2.0 * 2.0, from PerformReptationOnCell. -/
def rReptationSquared : ℝ := 2 * 2

/-- One axis of SnapWorld: a coordinate below 0 is raised by the box size, a
coordinate at or above the box size is lowered by it. -/
def snapAxis (size p : ℝ) : ℝ :=
  if p < 0 then size + p
  else if size ≤ p then p - size
  else p

/-- SnapWorld of desert-simulation.cpp: wraps a world point using only the
size of the bounding box, one axis at a time. -/
def SnapWorld (size : Vec2) (p : Vec2) : Vec2 :=
  ⟨snapAxis size.x p.x, snapAxis size.y p.y⟩

/-- The full simulation state of a DuneSediment object, with the fields of
desert.h.  The noise function is the external coherent-noise collaborator
(PerlinNoise.GetValue); simulationStepCount models the function-static counter
of EndSimulationStep. -/
structure DuneState where
  nx : ℕ
  ny : ℕ
  boxMin : Vec2
  boxMax : Vec2
  bedrock : ℤ × ℤ → ℝ
  sediments : ℤ × ℤ → ℝ
  vegetation : ℤ × ℤ → ℝ
  wind : Vec2
  matterToMove : ℝ
  vegetationOn : Bool
  abrasionOn : Bool
  noise : Vec2 → ℝ
  simulationStepCount : ℤ

/-- Size of the world bounding box (Box2D.Size). -/
def boxSize (s : DuneState) : Vec2 := vsub s.boxMax s.boxMin

/-- Horizontal world-space step between two grid samples (the celldiagonal
computed in the DuneSediment constructors, desert.cpp). -/
def cellDiagX (s : DuneState) : ℝ := (s.boxMax.x - s.boxMin.x) / ((s.nx : ℝ) - 1)

/-- Vertical world-space step between two grid samples. -/
def cellDiagY (s : DuneState) : ℝ := (s.boxMax.y - s.boxMin.y) / ((s.ny : ℝ) - 1)

/-- Cached cell size (desert.cpp stores the x extent of one cell; the
simulator only considers square cells). -/
def cellSize (s : DuneState) : ℝ := cellDiagX s

/-- Modelled from the spec: ScalarField2D.ArrayVertex, the world position of
a grid vertex (section 4.1, vertex_of). -/
def ArrayVertex (s : DuneState) (i j : ℤ) : Vec2 :=
  ⟨s.boxMin.x + (i : ℝ) * cellDiagX s, s.boxMin.y + (j : ℝ) * cellDiagY s⟩

/-- Modelled from the spec: ScalarField2D.CellInteger, world point to integer
cell by dividing by the cell diagonal and flooring (section 4.1, cell_of). -/
def CellInteger (s : DuneState) (p : Vec2) : ℤ × ℤ :=
  (⌊(p.x - s.boxMin.x) / cellDiagX s⌋, ⌊(p.y - s.boxMin.y) / cellDiagY s⌋)

/-- Modelled from the spec: ScalarField2D.GetValueBilinear, standard 4-tap
bilinear interpolation over the grid (section 4.1, sample_bilinear). -/
def GetValueBilinear (s : DuneState) (f : ℤ × ℤ → ℝ) (p : Vec2) : ℝ :=
  let qx := (p.x - s.boxMin.x) / cellDiagX s
  let qy := (p.y - s.boxMin.y) / cellDiagY s
  let i := ⌊qx⌋
  let j := ⌊qy⌋
  let u := qx - (i : ℝ)
  let v := qy - (j : ℝ)
  (1 - u) * (1 - v) * f (i, j) + u * (1 - v) * f (i + 1, j) +
    (1 - u) * v * f (i, j + 1) + u * v * f (i + 1, j + 1)

/-- Total height at a grid cell: bedrock plus sediment (Height(int,int) of
desert.h). -/
def HeightCell (s : DuneState) (i j : ℤ) : ℝ := s.bedrock (i, j) + s.sediments (i, j)

/-- Total height at a world point: sum of the bilinear samples of the two
layers (Height(Vector2) of desert.h). -/
def Height (s : DuneState) (p : Vec2) : ℝ :=
  GetValueBilinear s s.bedrock p + GetValueBilinear s s.sediments p

/-- Modelled from the spec: ScalarField2D.Gradient, central differences with
one-sided differences at the grid edges, in per-cell units (section 4.1). -/
def Gradient (s : DuneState) (f : ℤ × ℤ → ℝ) (i j : ℤ) : Vec2 :=
  let gx :=
    if i = 0 then f (1, j) - f (0, j)
    else if i = (s.nx : ℤ) - 1 then f (i, j) - f (i - 1, j)
    else (f (i + 1, j) - f (i - 1, j)) / 2
  let gy :=
    if j = 0 then f (i, 1) - f (i, 0)
    else if j = (s.ny : ℤ) - 1 then f (i, j) - f (i, j - 1)
    else (f (i, j + 1) - f (i, j - 1)) / 2
  ⟨gx, gy⟩

/-- Atomic add of a delta to one cell of a field. -/
def addTo (f : ℤ × ℤ → ℝ) (c : ℤ × ℤ) (delta : ℝ) : ℤ × ℤ → ℝ :=
  Function.update f c (f c + delta)

/-- The wind scaled by the sand column, (1 + 0.005 sediments) * wind, the
value a dead-air early return of ComputeWindAtCell hands back unchanged. -/
def scaledWind (s : DuneState) (i j : ℤ) : Vec2 :=
  smul (1 + 0.005 * s.sediments (i, j)) s.wind

/-- The vector orthogonal to a gradient used by ComputeWindAtCell,
(-g.y, g.x). -/
def orthVec (g : Vec2) : Vec2 := ⟨-g.y, g.x⟩

/-- The orthogonal vector after the flip test of ComputeWindAtCell: the C++
tests Dot(g, orthogonalVec) as a boolean, so the vector is negated exactly
when that dot product is nonzero. -/
def flipOrth (g : Vec2) : Vec2 :=
  if Dot g (orthVec g) ≠ 0 then vneg (orthVec g) else orthVec g

/-- The slope factor of ComputeWindAtCell: clamped gradient magnitude inside
the nonzero-gradient branch, and the initial value 0 otherwise. -/
def slopeAt (s : DuneState) (i j : ℤ) : ℝ :=
  if Gradient s s.sediments i j ≠ vzero ∧ scaledWind s i j ≠ vzero then
    clamp01 (Magnitude (Gradient s s.sediments i j))
  else 0

/-- ComputeWindAtCell of desert-simulation.cpp: scale the global wind by the
sand column, return it unchanged when both components are below 0.001, and
otherwise deflect it toward the direction orthogonal to the sediment
gradient, by the clamped gradient magnitude. -/
def ComputeWindAtCell (s : DuneState) (i j : ℤ) : Vec2 :=
  let windDir := scaledWind s i j
  if windDir.x < 0.001 ∧ windDir.y < 0.001 then windDir
  else
    let g := Gradient s s.sediments i j
    if g ≠ vzero ∧ windDir ≠ vzero then
      lerpV windDir (smul 5 (flipOrth g)) (clamp01 (Magnitude g))
    else
      lerpV windDir (smul 5 (orthVec g)) 0

/-- Result of the upwind march of IsInShadow: the accumulated occlusion
value, the list of probe distances used as divisors (in order), and the
number of loop-body entries. -/
structure ShadowOut where
  ret : ℝ
  ds : List ℝ
  iters : ℕ

/-- The while(true) upwind march of IsInShadow.  The C++ loop is unbounded
syntactically and leaves through one of its two break statements; the model
makes one recursive step per loop-body entry and spends one unit of fuel per
entry, returning none if the fuel runs out before a break.  The termination
theorem below shows that 21 units of fuel always suffice. -/
def shadowGo (s : DuneState) (p : Vec2) (hp : ℝ) (windStep : Vec2) :
    ℕ → Vec2 → ℝ → List ℝ → ℕ → Option ShadowOut
  | 0, _, _, _, _ => none
  | fuel + 1, pShadow, ret, ds, iters =>
    let pShadow2 := vsub pShadow windStep
    if pShadow2 = p then some ⟨ret, ds, iters + 1⟩
    else
      let pSnapped := SnapWorld (boxSize s) pShadow2
      let d := Magnitude (vsub p pShadow2)
      if rShadow < d then some ⟨ret, ds, iters + 1⟩
      else
        let t := (Height s pSnapped - hp) / d
        let sh := smoothstep t tanThresholdAngleWindShadowMin tanThresholdAngleWindShadowMax
        shadowGo s p hp windStep fuel pShadow2 (max ret sh) (ds ++ [d]) (iters + 1)

/-- Fuel given to the shadow march; by the termination theorem the loop
always breaks within 21 body entries, so this bound never truncates it. -/
def shadowFuel : ℕ := 21

/-- IsInShadow of desert-simulation.cpp: returns 0 for dead air, and
otherwise the maximal smoothstepped upwind obstruction tangent found while
marching upwind in steps of half a unit wind vector. -/
def IsInShadow (s : DuneState) (i j : ℤ) (windDir : Vec2) : ℝ :=
  if Magnitude windDir < 0.001 then 0
  else
    let windStep := smul 0.5 (Normalize windDir)
    let p := ArrayVertex s i j
    match shadowGo s p (Height s p) windStep shadowFuel p 0 [] 0 with
    | some r => r.ret
    | none => 0

/-- The 8-connected neighborhood offsets, in the order of the file-scope
next8 array of desert-simulation.cpp. -/
def next8 : List (ℤ × ℤ) :=
  [(1, 0), (1, 1), (0, 1), (-1, 1), (-1, 0), (-1, -1), (0, -1), (1, -1)]

/-- Modelled from the spec: world-space distance to a neighbor, cellSize for
axis neighbors and sqrt 2 cellSize for diagonal ones (section 4.7). -/
def neighborDist (s : DuneState) (o : ℤ × ℤ) : ℝ :=
  if o.1 = 0 ∨ o.2 = 0 then cellSize s else Real.sqrt 2 * cellSize s

/-- Modelled from the spec: the downhill tangent toward one neighbor,
(H(p) - H(neighbor)) / distance (section 4.7). -/
def slopeTo (s : DuneState) (i j : ℤ) (o : ℤ × ℤ) : ℝ :=
  (HeightCell s i j - HeightCell s (i + o.1) (j + o.2)) / neighborDist s o

/-- Modelled from the spec: CheckSedimentFlowRelative is declared in desert.h
but its body is not among the four source files.  Following section 4.7 of
the spec, it collects the neighbors whose downhill tangent strictly exceeds
the threshold and sorts them steepest first; the returned list carries the
neighbor cell and its tangent. -/
def CheckSedimentFlowRelative (s : DuneState) (i j : ℤ) (tanThreshold : ℝ) :
    List ((ℤ × ℤ) × ℝ) :=
  let cands := (next8.map fun o => ((i + o.1, j + o.2), slopeTo s i j o)).filter
    fun c => tanThreshold < c.2
  List.insertionSort (fun a b => b.2 ≤ a.2) cands

/-- The amount of sand creeped by one reptation call: with b the bounce count
clamped to [0, 3], se interpolates from matterToMove / 2 to matterToMove as
b / 3 goes from 0 to 1 (PerformReptationOnCell). -/
def seAmount (s : DuneState) (bounce : ℤ) : ℝ :=
  lerp (s.matterToMove / 2) s.matterToMove ((clampI bounce 0 3 : ℝ) / 3)

/-- The at most two steepest downhill neighbors reptation distributes to:
n = Min(2, CheckSedimentFlowRelative(...)). -/
def reptSelected (s : DuneState) (i j : ℤ) : List ((ℤ × ℤ) × ℝ) :=
  (CheckSedimentFlowRelative s i j tanThresholdAngleSediment).take 2

/-- The selected neighbors that actually receive sand: those whose squared
world-space distance to the source vertex does not exceed rReptationSquared
(the loop of PerformReptationOnCell skips the others). -/
def reptEffective (s : DuneState) (i j : ℤ) : List ((ℤ × ℤ) × ℝ) :=
  (reptSelected s i j).filter fun c =>
    SquaredMagnitude (vsub (ArrayVertex s i j) (ArrayVertex s c.1.1 c.1.2)) ≤ rReptationSquared

/-- PerformReptationOnCell of desert-simulation.cpp: distribute se / n to
each of the n (at most 2) steepest downhill neighbors lying within the
reptation radius, and, if at least one neighbor received sand, remove se from
the source cell. -/
def PerformReptationOnCell (s : DuneState) (i j bounce : ℤ) : DuneState :=
  let se := seAmount s bounce
  let p := ArrayVertex s i j
  let sel := reptSelected s i j
  let n := sel.length
  let fold := sel.foldl
    (fun (acc : (ℤ × ℤ → ℝ) × ℕ) c =>
      if rReptationSquared < SquaredMagnitude (vsub p (ArrayVertex s c.1.1 c.1.2)) then acc
      else (addTo acc.1 c.1 (se / (n : ℝ)), acc.2 + 1))
    (s.sediments, 0)
  if 0 < n ∧ 0 < fold.2 then
    { s with sediments := addTo fold.1 (i, j) (-se) }
  else
    { s with sediments := fold.1 }

/-- The abrasion strength si of PerformAbrasionOnCell: epsilon times lack of
vegetation times bedrock weakness times clamped wind speed. -/
def abrasionAmount (s : DuneState) (i j : ℤ) (windDir : Vec2) : ℝ :=
  let v := if s.vegetationOn then s.vegetation (i, j) else 0
  let p := ArrayVertex s i j
  let h := (Real.sin (p.y * 0.08 + 15.36 * s.noise (smul 0.05 p)) + 1) / 2
  let w := clamp (Magnitude windDir) 0 2
  abrasionEpsilon * (1 - v) * (1 - h) * w

/-- PerformAbrasionOnCell of desert-simulation.cpp: if the abrasion strength
is nonzero, subtract it from the bedrock; the transformed material is
discarded. -/
def PerformAbrasionOnCell (s : DuneState) (i j : ℤ) (windDir : Vec2) : DuneState :=
  let si := abrasionAmount s i j windDir
  if si = 0 then s
  else { s with bedrock := addTo s.bedrock (i, j) (-si) }

/-- Ghost log entries recording the operations a saltation event performs on
the shared fields.  lift and deposit record the cell and the (positive)
amount of sand removed from, respectively added to, it; stabilizeSediment and
stabilizeBedrockAll record invocations of the stabilization routines, whose
bodies are not among the four source files (they are declared in desert.h);
eventStart marks the entry of one SimulationStepWorldSpace call. -/
inductive SimOp
  | lift : ℤ → ℤ → ℝ → SimOp
  | deposit : ℤ → ℤ → ℝ → SimOp
  | stabilizeSediment : ℤ → ℤ → SimOp
  | stabilizeBedrockAll : SimOp
  | eventStart : SimOp

/-- Recognizer for the eventStart marker. -/
def SimOp.isEventStart : SimOp → Bool
  | .eventStart => true
  | _ => false

/-- Recognizer for the stabilizeBedrockAll marker. -/
def SimOp.isStabilizeBedrockAll : SimOp → Bool
  | .stabilizeBedrockAll => true
  | _ => false

/-- Recognizer for the operations that move sand in or out of the system:
the lift and the deposit of a grain packet. -/
def SimOp.isLiftDep : SimOp → Bool
  | .lift _ _ _ => true
  | .deposit _ _ _ => true
  | _ => false

/-- Recognizer for deposit entries. -/
def SimOp.isDeposit : SimOp → Bool
  | .deposit _ _ _ => true
  | _ => false

/-- Signed change of total sediment mass caused by one logged operation: a
lift removes its amount, a deposit adds it, stabilization only transfers. -/
def SimOp.massDelta : SimOp → ℝ
  | .lift _ _ a => -a
  | .deposit _ _ a => a
  | _ => 0

/-- The vegetation value the deposition rules read: the destination cell
vegetation when vegetation is on, and 0 otherwise. -/
def vegAt (s : DuneState) (i j : ℤ) : ℝ :=
  if s.vegetationOn then s.vegetation (i, j) else 0

/-- The deposition test of one hop, written as the specification states it
(section 4.4 step d): the grain settles when p falls below the shadow factor,
or the destination is sandy and p is below 0.6 + 0.4 v, or the destination is
bare and p is below 0.4 + 0.6 v. -/
def depositConditionSpec (s : DuneState) (dI dJ : ℤ) (windDir : Vec2) (p : ℝ) : Prop :=
  p < IsInShadow s dI dJ windDir ∨
    (0 < s.sediments (dI, dJ) ∧ p < 0.6 + 0.4 * vegAt s dI dJ) ∨
    (s.sediments (dI, dJ) ≤ 0 ∧ p < 0.4 + 0.6 * vegAt s dI dJ)

/-- The abrasion coupling at the start of each hop (lines 109-111): when
abrasion is on, one uniform draw is consumed and, if it is below 0.2 and the
destination holds less than 0.5 of sand, the destination is abraded. -/
def hopAbrade (u : ℕ → ℝ) (s : DuneState) (r : ℕ) (dI dJ : ℤ) (windDir : Vec2) :
    DuneState × ℕ :=
  if s.abrasionOn then
    (if u r < 0.2 ∧ s.sediments (dI, dJ) < 0.5 then PerformAbrasionOnCell s dI dJ windDir
     else s, r + 1)
  else (s, r)

/-- The result of one body entry of the saltation hop loop. -/
structure HopOut where
  dune : DuneState
  r : ℕ
  pos : Vec2
  destI : ℤ
  destJ : ℤ
  bounce : ℕ
  deposited : Bool
  ops : List SimOp

/-- One body entry of the saltation hop loop of SimulationStepWorldSpace
(lines 96-142): recompute the wind at the current cell, advance and wrap the
world position, resolve the new destination cell, possibly abrade it, then
draw p and either deposit matterToMove there (ending the loop) or increment
the bounce count and possibly creep sand by reptation. -/
def hopIteration (u : ℕ → ℝ) (s : DuneState) (r : ℕ) (pos : Vec2)
    (destI destJ startI startJ : ℤ) (bounce : ℕ) : HopOut :=
  let windDir := ComputeWindAtCell s destI destJ
  let pos2 := SnapWorld (boxSize s) (vadd pos windDir)
  let dc := CellInteger s pos2
  let ar := hopAbrade u s r dc.1 dc.2 windDir
  let s1 := ar.1
  let p := u ar.2
  let r2 := ar.2 + 1
  if p < IsInShadow s1 dc.1 dc.2 windDir then
    ⟨{ s1 with sediments := addTo s1.sediments dc s1.matterToMove }, r2, pos2, dc.1, dc.2,
      bounce, true, [SimOp.deposit dc.1 dc.2 s1.matterToMove]⟩
  else if 0 < s1.sediments dc ∧ p < 0.6 + (if s1.vegetationOn then s1.vegetation dc * 0.4 else 0) then
    ⟨{ s1 with sediments := addTo s1.sediments dc s1.matterToMove }, r2, pos2, dc.1, dc.2,
      bounce, true, [SimOp.deposit dc.1 dc.2 s1.matterToMove]⟩
  else if s1.sediments dc ≤ 0 ∧ p < 0.4 + (if s1.vegetationOn then s1.vegetation dc * 0.6 else 0) then
    ⟨{ s1 with sediments := addTo s1.sediments dc s1.matterToMove }, r2, pos2, dc.1, dc.2,
      bounce, true, [SimOp.deposit dc.1 dc.2 s1.matterToMove]⟩
  else
    let bounce2 := bounce + 1
    let s2 := if u r2 < 1 - s1.vegetation (startI, startJ) then
        PerformReptationOnCell s1 dc.1 dc.2 (bounce2 : ℤ)
      else s1
    ⟨s2, r2 + 1, pos2, dc.1, dc.2, bounce2, false, []⟩

/-- The result of the whole hop loop. -/
structure LoopOut where
  dune : DuneState
  r : ℕ
  destI : ℤ
  destJ : ℤ
  bounce : ℕ
  deposited : Bool
  iters : ℕ
  ops : List SimOp

/-- The saltation hop loop, while (bounce < MAX_BOUNCE): the fuel argument is
the number of bounces still allowed, so the loop is entered with fuel
MAX_BOUNCE and bounce 0, and one unit is spent per body entry that does not
deposit. -/
def hopLoop (u : ℕ → ℝ) (startI startJ : ℤ) :
    ℕ → DuneState → ℕ → Vec2 → ℤ → ℤ → ℕ → LoopOut
  | 0, s, r, _, destI, destJ, bounce => ⟨s, r, destI, destJ, bounce, false, 0, []⟩
  | fuel + 1, s, r, pos, destI, destJ, bounce =>
    let h := hopIteration u s r pos destI destJ startI startJ bounce
    if h.deposited then ⟨h.dune, h.r, h.destI, h.destJ, h.bounce, true, 1, h.ops⟩
    else
      let rest := hopLoop u startI startJ fuel h.dune h.r h.pos h.destI h.destJ h.bounce
      ⟨rest.dune, rest.r, rest.destI, rest.destJ, rest.bounce, rest.deposited,
        rest.iters + 1, h.ops ++ rest.ops⟩

/-- The result of one saltation event. -/
structure EvOut where
  dune : DuneState
  r : ℕ
  ops : List SimOp
  iters : ℕ

/-- The random start column of one event, Random.Integer() % nx. -/
def eventStartI (ir : ℕ → ℕ) (s : DuneState) (r : ℕ) : ℤ := ((ir r % s.nx : ℕ) : ℤ)

/-- The random start row of one event, Random.Integer() % ny. -/
def eventStartJ (ir : ℕ → ℕ) (s : DuneState) (r : ℕ) : ℤ := ((ir (r + 1) % s.ny : ℕ) : ℤ)

/-- The tail of a saltation event once the lift checks have passed (lines
87-153): remove matterToMove from the source, run the hop loop from the
source vertex, possibly creep once more at the final destination, and
stabilize source and destination.  The two trailing StabilizeSedimentRelative
calls have no body among the four source files and are recorded as log
events. -/
def eventLift (u : ℕ → ℝ) (s : DuneState) (r : ℕ) (startI startJ : ℤ) : EvOut :=
  let s1 := { s with sediments := addTo s.sediments (startI, startJ) (-s.matterToMove) }
  let pos := ArrayVertex s1 startI startJ
  let lp := hopLoop u startI startJ MAX_BOUNCE s1 r pos startI startJ 0
  let s2 := if u lp.r < 1 - lp.dune.vegetation (startI, startJ) then
      PerformReptationOnCell lp.dune lp.destI lp.destJ (lp.bounce : ℤ)
    else lp.dune
  ⟨s2, lp.r + 1,
    SimOp.eventStart :: SimOp.lift startI startJ s.matterToMove :: lp.ops ++
      [SimOp.stabilizeSediment startI startJ, SimOp.stabilizeSediment lp.destI lp.destJ],
    lp.iters⟩

/-- One saltation event, SimulationStepWorldSpace of desert-simulation.cpp.
A random cell is drawn; the event aborts on an empty cell, and is retained
(with a stabilization of the source) by wind shadow or by vegetation;
otherwise the grain packet is lifted and hopped.  The random source is a
sequence indexed by a cursor r; a uniform real draw or an integer draw each
consume one position, and the vegetation draw happens only when vegetation is
on, matching the short-circuit on line 81.  StabilizeSedimentRelative is
declared in desert.h with no body among the four source files; its
invocations are recorded as log events. -/
def SimulationStepWorldSpace (u : ℕ → ℝ) (ir : ℕ → ℕ) (s : DuneState) (r0 : ℕ) : EvOut :=
  let startI := eventStartI ir s r0
  let startJ := eventStartJ ir s r0
  let r := r0 + 2
  let windDir := ComputeWindAtCell s startI startJ
  if s.sediments (startI, startJ) ≤ 0 then ⟨s, r, [SimOp.eventStart], 0⟩
  else if u r < IsInShadow s startI startJ windDir then
    ⟨s, r + 1, [SimOp.eventStart, SimOp.stabilizeSediment startI startJ], 0⟩
  else if s.vegetationOn then
    if u (r + 1) < s.vegetation (startI, startJ) then
      ⟨s, r + 2, [SimOp.eventStart, SimOp.stabilizeSediment startI startJ], 0⟩
    else eventLift u s (r + 2) startI startJ
  else eventLift u s (r + 1) startI startJ

/-- EndSimulationStep of desert-simulation.cpp: increment the step counter
and, every fifth step, run StabilizeBedrockAll when abrasion is on.
StabilizeBedrockAll is declared in desert.h with no body among the four
source files; its invocation is recorded as a log event. -/
def EndSimulationStep (s : DuneState) : DuneState × List SimOp :=
  let s1 := { s with simulationStepCount := s.simulationStepCount + 1 }
  if s1.simulationStepCount % 5 = 0 then
    if s1.abrasionOn then (s1, [SimOp.stabilizeBedrockAll]) else (s1, [])
  else (s1, [])

/-- The result of one full simulation step. -/
structure StepOut where
  dune : DuneState
  r : ℕ
  ops : List SimOp

/-- SimulationStepMultiThreadAtomic of desert-simulation.cpp: the two nested
loops perform nx * ny saltation events (the loop indices are never used by
the body), then EndSimulationStep runs.  The OpenMP dispatch is modelled as a
sequential fold; the order of events within a step is unspecified by the
design (spec section 5). -/
def SimulationStepMultiThreadAtomic (u : ℕ → ℝ) (ir : ℕ → ℕ) (s : DuneState) (r0 : ℕ) :
    StepOut :=
  let ev := (List.range (s.nx * s.ny)).foldl
    (fun (acc : StepOut) _ =>
      let e := SimulationStepWorldSpace u ir acc.dune acc.r
      ⟨e.dune, e.r, acc.ops ++ e.ops⟩)
    ⟨s, r0, []⟩
  let fin := EndSimulationStep ev.dune
  ⟨fin.1, ev.r, ev.ops ++ fin.2⟩

/-- Example sediment field: 6 units of sand east of the center of a 3 x 3
grid, 8 units north of it, bare otherwise; gives the center cell the
gradient (3, 4). -/
def exSedC1 : ℤ × ℤ → ℝ := fun c =>
  if c = (2, 1) then 6 else if c = (1, 2) then 8 else 0

/-- Example state with a strong south-west wind (-5, -5) over the exSedC1
sediment field. -/
def exC1 : DuneState :=
  { nx := 3, ny := 3, boxMin := ⟨0, 0⟩, boxMax := ⟨2, 2⟩,
    bedrock := fun _ => 0, sediments := exSedC1, vegetation := fun _ => 0,
    wind := ⟨-5, -5⟩, matterToMove := 0.1, vegetationOn := false,
    abrasionOn := false, noise := fun _ => 0, simulationStepCount := 0 }

/-- Example state: a flat 4 x 4 world with one unit of sand everywhere, no
bedrock, no vegetation, and an eastward unit wind. -/
def exFlat : DuneState :=
  { nx := 4, ny := 4, boxMin := ⟨0, 0⟩, boxMax := ⟨3, 3⟩,
    bedrock := fun _ => 0, sediments := fun _ => 1, vegetation := fun _ => 0,
    wind := ⟨1, 0⟩, matterToMove := 0.1, vegetationOn := false,
    abrasionOn := false, noise := fun _ => 0, simulationStepCount := 0 }

/-- Example state for reptation on a coarse grid: a 3 x 3 grid over a 6-box,
so neighboring vertices are 3 world units apart, farther than the reptation
radius 2; the center column is 6 units of sand above its eastern neighbor. -/
def exSedR : ℤ × ℤ → ℝ := fun c => if c = (2, 1) then 0 else 6

/-- Coarse-grid reptation example state over exSedR. -/
def exR : DuneState :=
  { nx := 3, ny := 3, boxMin := ⟨0, 0⟩, boxMax := ⟨6, 6⟩,
    bedrock := fun _ => 0, sediments := exSedR, vegetation := fun _ => 0,
    wind := ⟨1, 0⟩, matterToMove := 0.1, vegetationOn := false,
    abrasionOn := false, noise := fun _ => 0, simulationStepCount := 0 }

/-- The scalar configuration of a state that no simulation operation
mutates: grid resolution, box, flags, transported amount, and the step
counter (only EndSimulationStep touches the counter). -/
def sameShape (s t : DuneState) : Prop :=
  t.nx = s.nx ∧ t.ny = s.ny ∧ t.boxMin = s.boxMin ∧ t.boxMax = s.boxMax ∧
  t.vegetationOn = s.vegetationOn ∧ t.abrasionOn = s.abrasionOn ∧
  t.matterToMove = s.matterToMove ∧ t.simulationStepCount = s.simulationStepCount

/-- A constant uniform random stream used for concrete runs. -/
def uHalf : ℕ → ℝ := fun _ => 1 / 2

/-- A constant integer random stream used for concrete runs. -/
def irOne : ℕ → ℕ := fun _ => 1

/-- The wind at cell (0, 0) of the flat example state. -/
def wdEx : Vec2 := ComputeWindAtCell exFlat 0 0

/-- The destination cell of the first hop from (0, 0) in the flat state. -/
def dcEx : ℤ × ℤ :=
  CellInteger exFlat (SnapWorld (boxSize exFlat) (vadd (ArrayVertex exFlat 0 0) wdEx))

/-- The post-abrasion state and random cursor of that hop. -/
def abEx : DuneState × ℕ := hopAbrade uHalf exFlat 0 dcEx.1 dcEx.2 wdEx

/-! ## Theorems -/

theorem snapAxis_of_mem {size p : ℝ} (h0 : 0 ≤ p) (h1 : p < size) :
    snapAxis size p = p := by
  unfold snapAxis
  rw [if_neg (not_lt.mpr h0), if_neg (not_le.mpr h1)]

theorem snapAxis_mem {size p : ℝ} (hs : 0 < size) (hlo : -size ≤ p)
    (hhi : p < 2 * size) : 0 ≤ snapAxis size p ∧ snapAxis size p < size := by
  unfold snapAxis
  split_ifs with h h2 <;> constructor <;> linarith

/-- C2, corrected.  SnapWorld wraps by at most one box period: whenever each
coordinate of p lies within one period of the box, that is in
[-size, 2 size), the snapped point lies in [0, size) on each axis and a
second application of SnapWorld leaves it unchanged.  (The computation uses
only the box size, so the wrapped interval starts at 0; the scenes of the
repository all use a box with minimum 0.)  The original claim, for every
p in the plane, fails: see the counterexample. -/
theorem c2_snapWorld_one_period (size p : Vec2)
    (hsx : 0 < size.x) (hsy : 0 < size.y)
    (hx0 : -size.x ≤ p.x) (hx1 : p.x < 2 * size.x)
    (hy0 : -size.y ≤ p.y) (hy1 : p.y < 2 * size.y) :
    (0 ≤ (SnapWorld size p).x ∧ (SnapWorld size p).x < size.x) ∧
    (0 ≤ (SnapWorld size p).y ∧ (SnapWorld size p).y < size.y) ∧
    SnapWorld size (SnapWorld size p) = SnapWorld size p := by
  obtain ⟨hx, hx'⟩ := snapAxis_mem hsx hx0 hx1
  obtain ⟨hy, hy'⟩ := snapAxis_mem hsy hy0 hy1
  refine ⟨⟨hx, hx'⟩, ⟨hy, hy'⟩, ?_⟩
  simp only [SnapWorld]
  rw [snapAxis_of_mem hx hx', snapAxis_of_mem hy hy']

/-- C2, counterexample to the original claim: the point (-2048, 0), two
periods below a 1024-box, is snapped to (-1024, 0), which is outside
[0, 1024) and not a fixed point of a second application, so SnapWorld is
neither into the box nor idempotent on all of the plane. -/
theorem c2_counterexample :
    SnapWorld ⟨1024, 1024⟩ (SnapWorld ⟨1024, 1024⟩ ⟨-2048, 0⟩) ≠
      SnapWorld ⟨1024, 1024⟩ ⟨-2048, 0⟩ ∧
    ¬ (0 ≤ (SnapWorld ⟨1024, 1024⟩ ⟨-2048, 0⟩).x) := by
  norm_num [SnapWorld, snapAxis, Vec2.ext_iff]

/-- Witness for C2 at the concrete point (-5, 1030) in a 1024-box. -/
theorem c2_snapWorld_one_period_witness :
    ((0:ℝ) < 1024 ∧ -(1024:ℝ) ≤ -5 ∧ (-5:ℝ) < 2 * 1024 ∧
      -(1024:ℝ) ≤ 1030 ∧ (1030:ℝ) < 2 * 1024) ∧
    ((0 ≤ (SnapWorld ⟨1024, 1024⟩ ⟨-5, 1030⟩).x ∧
        (SnapWorld ⟨1024, 1024⟩ ⟨-5, 1030⟩).x < 1024) ∧
      (0 ≤ (SnapWorld ⟨1024, 1024⟩ ⟨-5, 1030⟩).y ∧
        (SnapWorld ⟨1024, 1024⟩ ⟨-5, 1030⟩).y < 1024) ∧
      SnapWorld ⟨1024, 1024⟩ (SnapWorld ⟨1024, 1024⟩ ⟨-5, 1030⟩) =
        SnapWorld ⟨1024, 1024⟩ ⟨-5, 1030⟩) :=
  ⟨by norm_num,
    c2_snapWorld_one_period ⟨1024, 1024⟩ ⟨-5, 1030⟩ (by norm_num) (by norm_num)
      (by norm_num) (by norm_num) (by norm_num) (by norm_num)⟩

/-- C8, counterexample to the original claim: the stored lower shadow
threshold 0.08 is more than 0.09 away from tan of 10 degrees (which exceeds
0.17), so it is not tan of 10 degrees up to reasonable rounding. -/
theorem c8_counterexample :
    0.09 < |tanThresholdAngleWindShadowMin - Real.tan (10 * π / 180)| := by
  have h1 : (10:ℝ) * π / 180 = π / 18 := by ring
  have h2 : π / 18 < Real.tan (π / 18) :=
    Real.lt_tan (by positivity) (by nlinarith [Real.pi_pos])
  have h3 : (0.17:ℝ) < π / 18 := by nlinarith [Real.pi_gt_d2]
  rw [h1, abs_sub_comm]
  rw [abs_of_pos (by simp only [tanThresholdAngleWindShadowMin]; linarith)]
  simp only [tanThresholdAngleWindShadowMin]
  linarith

theorem tan_five_deg_bounds :
    0.087 < Real.tan (π / 36) ∧ Real.tan (π / 36) < 0.088 := by
  have hx1 : (0.0872:ℝ) < π / 36 := by nlinarith [Real.pi_gt_d4]
  have hx2 : π / 36 < 0.0873 := by nlinarith [Real.pi_lt_d4]
  have hlo : π / 36 < Real.tan (π / 36) :=
    Real.lt_tan (by positivity) (by nlinarith [Real.pi_pos])
  have hsin : Real.sin (π / 36) < π / 36 := Real.sin_lt (by positivity)
  have hcos : 1 - (π / 36) ^ 2 / 2 < Real.cos (π / 36) :=
    Real.one_sub_sq_div_two_lt_cos (by positivity)
  have hcos2 : (0.996:ℝ) < Real.cos (π / 36) := by nlinarith
  have hsinpos : 0 < Real.sin (π / 36) :=
    Real.sin_pos_of_pos_of_lt_pi (by positivity) (by nlinarith [Real.pi_pos])
  constructor
  · linarith
  · rw [Real.tan_eq_sin_div_cos]
    rw [div_lt_iff (by linarith)]
    nlinarith

theorem tan_fifteen_deg_eq : Real.tan (π / 12) = 2 - Real.sqrt 3 := by
  have hsq3 : Real.sqrt 3 ^ 2 = 3 := Real.sq_sqrt (by norm_num)
  have hsq3nn : 0 ≤ Real.sqrt 3 := Real.sqrt_nonneg 3
  have h3lt : Real.sqrt 3 < 2 := by nlinarith
  have hc2 : Real.cos (π / 12) ^ 2 = (2 + Real.sqrt 3) / 4 := by
    have h := Real.cos_sq (π / 12)
    rw [show 2 * (π / 12) = π / 6 by ring, Real.cos_pi_div_six] at h
    rw [h]; ring
  have hid := Real.sin_sq_add_cos_sq (π / 12)
  have hs2 : Real.sin (π / 12) ^ 2 = (2 - Real.sqrt 3) / 4 := by linarith
  have hcpos : 0 < Real.cos (π / 12) :=
    Real.cos_pos_of_mem_Ioo ⟨by nlinarith [Real.pi_pos], by nlinarith [Real.pi_pos]⟩
  have hspos : 0 < Real.sin (π / 12) :=
    Real.sin_pos_of_pos_of_lt_pi (by positivity) (by nlinarith [Real.pi_pos])
  rw [Real.tan_eq_sin_div_cos]
  have htanpos : 0 < Real.sin (π / 12) / Real.cos (π / 12) := by positivity
  have ht2 : (Real.sin (π / 12) / Real.cos (π / 12)) ^ 2 = (2 - Real.sqrt 3) ^ 2 := by
    rw [div_pow, hs2, hc2]
    rw [div_eq_iff (by positivity)]
    nlinarith
  have hfac : (Real.sin (π / 12) / Real.cos (π / 12) - (2 - Real.sqrt 3)) *
      (Real.sin (π / 12) / Real.cos (π / 12) + (2 - Real.sqrt 3)) = 0 := by
    nlinarith
  rcases mul_eq_zero.mp hfac with h | h
  · linarith
  · nlinarith

/-- C8, amended.  The stored smoothstep thresholds of the shadow test are
tan of 5 degrees and tan of 15 degrees up to rounding (within 0.01), as the
comments in desert.h state; the lower one is not tan of 10 degrees. -/
theorem c8_shadow_thresholds :
    |tanThresholdAngleWindShadowMin - Real.tan (5 * π / 180)| < 0.01 ∧
    |tanThresholdAngleWindShadowMax - Real.tan (15 * π / 180)| < 0.01 := by
  constructor
  · rw [show (5:ℝ) * π / 180 = π / 36 by ring]
    obtain ⟨h1, h2⟩ := tan_five_deg_bounds
    rw [abs_lt]
    simp only [tanThresholdAngleWindShadowMin]
    constructor <;> linarith
  · rw [show (15:ℝ) * π / 180 = π / 12 by ring, tan_fifteen_deg_eq]
    have hsq3 : Real.sqrt 3 ^ 2 = 3 := Real.sq_sqrt (by norm_num)
    have hsq3nn : 0 ≤ Real.sqrt 3 := Real.sqrt_nonneg 3
    have h1 : (1.73:ℝ) < Real.sqrt 3 := by nlinarith
    have h2 : Real.sqrt 3 < 1.75 := by nlinarith
    rw [abs_lt]
    simp only [tanThresholdAngleWindShadowMax]
    constructor <;> linarith

theorem dot_orthVec (g : Vec2) : Dot g (orthVec g) = 0 := by
  simp only [Dot, orthVec]
  ring

theorem flipOrth_eq (g : Vec2) : flipOrth g = orthVec g := by
  unfold flipOrth
  rw [if_neg (not_ne_iff.mpr (dot_orthVec g))]

theorem computeWind_guard (s : DuneState) (i j : ℤ)
    (hx : (scaledWind s i j).x < 0.001) (hy : (scaledWind s i j).y < 0.001) :
    ComputeWindAtCell s i j = scaledWind s i j := by
  simp only [ComputeWindAtCell]
  rw [if_pos ⟨hx, hy⟩]

theorem computeWind_not_guard (s : DuneState) (i j : ℤ)
    (h : ¬ ((scaledWind s i j).x < 0.001 ∧ (scaledWind s i j).y < 0.001)) :
    ComputeWindAtCell s i j =
      lerpV (scaledWind s i j) (smul 5 (orthVec (Gradient s s.sediments i j)))
        (slopeAt s i j) := by
  simp only [ComputeWindAtCell, slopeAt]
  rw [if_neg h]
  by_cases hg : Gradient s s.sediments i j ≠ vzero ∧ scaledWind s i j ≠ vzero
  · rw [if_pos hg, if_pos hg, flipOrth_eq]
  · rw [if_neg hg, if_neg hg]

/-- C1, amended.  The dead-air early return of ComputeWindAtCell fires
exactly when both components of the scaled wind are below 0.001 as signed
comparisons (so winds with large negative components also skip the
gradient-based modulation); for every other wind the function applies the
deflection lerp(w, 5 g-orthogonal, slope).  The original claim, with the
comparisons on absolute values, fails: see the counterexample. -/
theorem c1_wind_early_return_guard :
    (∀ (s : DuneState) (i j : ℤ),
      (scaledWind s i j).x < 0.001 → (scaledWind s i j).y < 0.001 →
        ComputeWindAtCell s i j = scaledWind s i j) ∧
    (∀ (s : DuneState) (i j : ℤ),
      ¬ ((scaledWind s i j).x < 0.001 ∧ (scaledWind s i j).y < 0.001) →
        ComputeWindAtCell s i j =
          lerpV (scaledWind s i j) (smul 5 (orthVec (Gradient s s.sediments i j)))
            (slopeAt s i j)) :=
  ⟨computeWind_guard, computeWind_not_guard⟩

theorem exC1_scaledWind : scaledWind exC1 1 1 = ⟨-5, -5⟩ := by
  simp only [scaledWind, exC1, exSedC1, smul]
  norm_num [Prod.ext_iff]

theorem exC1_gradient : Gradient exC1 exC1.sediments 1 1 = ⟨3, 4⟩ := by
  simp only [Gradient, exC1, exSedC1]
  norm_num

theorem exC1_slope : slopeAt exC1 1 1 = 1 := by
  rw [slopeAt, if_pos]
  · rw [exC1_gradient]
    have hm : Magnitude ⟨3, 4⟩ = 5 := by
      simp only [Magnitude, SquaredMagnitude]
      rw [show (3:ℝ) * 3 + 4 * 4 = 5 ^ 2 by norm_num, Real.sqrt_sq (by norm_num)]
    rw [hm]
    simp only [clamp01, clamp]
    norm_num
  · rw [exC1_gradient, exC1_scaledWind]
    constructor <;> simp [vzero, Vec2.ext_iff]

/-- C1, counterexample to the original claim: at the center cell of exC1 the
scaled wind is (-5, -5), whose components are far above 0.001 in absolute
value, so the claim requires the deflection lerp to be applied; but the
signed guard of the code accepts it and ComputeWindAtCell returns the wind
unchanged, while the deflected value differs from it. -/
theorem c1_counterexample :
    ¬ (|(scaledWind exC1 1 1).x| < 0.001 ∧ |(scaledWind exC1 1 1).y| < 0.001) ∧
    ComputeWindAtCell exC1 1 1 = scaledWind exC1 1 1 ∧
    lerpV (scaledWind exC1 1 1) (smul 5 (orthVec (Gradient exC1 exC1.sediments 1 1)))
        (slopeAt exC1 1 1) ≠ scaledWind exC1 1 1 := by
  refine ⟨?_, ?_, ?_⟩
  · rw [exC1_scaledWind]
    intro hc
    have := hc.1
    norm_num at this
  · exact computeWind_guard exC1 1 1 (by rw [exC1_scaledWind]; norm_num)
      (by rw [exC1_scaledWind]; norm_num)
  · rw [exC1_scaledWind, exC1_gradient, exC1_slope]
    simp only [lerpV, lerp, smul, orthVec, Vec2.ext_iff]
    norm_num

/-- Witness for C1: the early-return case of the guard characterization at
the concrete state exC1. -/
theorem c1_wind_early_return_guard_witness :
    ((scaledWind exC1 1 1).x < 0.001 ∧ (scaledWind exC1 1 1).y < 0.001) ∧
    ComputeWindAtCell exC1 1 1 = scaledWind exC1 1 1 := by
  have hx : (scaledWind exC1 1 1).x < 0.001 := by rw [exC1_scaledWind]; norm_num
  have hy : (scaledWind exC1 1 1).y < 0.001 := by rw [exC1_scaledWind]; norm_num
  exact ⟨⟨hx, hy⟩, c1_wind_early_return_guard.1 exC1 1 1 hx hy⟩

/-- C9, confirmed.  The flip test of ComputeWindAtCell compares
Dot(g, orthogonalVec) against zero, but that dot product is identically zero
for the orthogonal vector (-g.y, g.x), so the flip branch never executes and
past the dead-air guard the returned wind is always the lerp toward the
unflipped orthogonal vector.  (In IEEE arithmetic the two products of the
dot are exact negations of each other, so the sum is exactly zero there as
well; the model works over the reals.) -/
theorem c9_flip_dead :
    (∀ g : Vec2, Dot g (orthVec g) = 0 ∧ flipOrth g = orthVec g) ∧
    (∀ (s : DuneState) (i j : ℤ),
      ¬ ((scaledWind s i j).x < 0.001 ∧ (scaledWind s i j).y < 0.001) →
        ComputeWindAtCell s i j =
          lerpV (scaledWind s i j) (smul 5 (orthVec (Gradient s s.sediments i j)))
            (slopeAt s i j)) :=
  ⟨fun g => ⟨dot_orthVec g, flipOrth_eq g⟩, computeWind_not_guard⟩

theorem exFlat_scaledWind (i j : ℤ) : scaledWind exFlat i j = ⟨1.005, 0⟩ := by
  simp only [scaledWind, exFlat, smul]
  norm_num

/-- Witness for C9 at the flat state exFlat: the guard does not fire and the
returned wind is the unflipped deflection lerp. -/
theorem c9_flip_dead_witness :
    (¬ ((scaledWind exFlat 0 0).x < 0.001 ∧ (scaledWind exFlat 0 0).y < 0.001)) ∧
    ComputeWindAtCell exFlat 0 0 =
      lerpV (scaledWind exFlat 0 0) (smul 5 (orthVec (Gradient exFlat exFlat.sediments 0 0)))
        (slopeAt exFlat 0 0) := by
  have hng : ¬ ((scaledWind exFlat 0 0).x < 0.001 ∧ (scaledWind exFlat 0 0).y < 0.001) := by
    rw [exFlat_scaledWind]
    intro hc
    have := hc.1
    norm_num at this
  exact ⟨hng, c9_flip_dead.2 exFlat 0 0 hng⟩

theorem abrasionAmount_nonneg (s : DuneState) (i j : ℤ) (windDir : Vec2)
    (hveg : s.vegetationOn = true → s.vegetation (i, j) ≤ 1) :
    0 ≤ abrasionAmount s i j windDir := by
  simp only [abrasionAmount]
  have hv : (if s.vegetationOn then s.vegetation (i, j) else 0) ≤ 1 := by
    cases hon : s.vegetationOn with
    | false => norm_num
    | true => simpa using hveg hon
  have hsin := Real.sin_le_one
    ((ArrayVertex s i j).y * 0.08 + 15.36 * s.noise (smul 0.05 (ArrayVertex s i j)))
  have hw : 0 ≤ clamp (Magnitude windDir) 0 2 := le_max_left 0 _
  have h1 : (0:ℝ) ≤ 1 - (if s.vegetationOn then s.vegetation (i, j) else 0) := by linarith
  have h2 : (0:ℝ) ≤ 1 -
      (Real.sin ((ArrayVertex s i j).y * 0.08 + 15.36 * s.noise (smul 0.05 (ArrayVertex s i j)))
        + 1) / 2 := by linarith
  have heps : (0:ℝ) ≤ abrasionEpsilon := by simp only [abrasionEpsilon]; norm_num
  exact mul_nonneg (mul_nonneg (mul_nonneg heps h1) h2) hw

/-- C6, confirmed.  PerformAbrasionOnCell never increases bedrock and never
modifies sediments: provided the vegetation map is within [0, 1] (its
documented range), the abrasion amount si is nonnegative, the bedrock at
(i, j) is lowered by si exactly when si is nonzero and untouched otherwise,
every cell of the bedrock is pointwise non-increasing, and hence the total
bedrock mass over any finite set of cells is non-increasing across abrasion
calls. -/
theorem c6_abrasion_monotone (s : DuneState) (i j : ℤ) (windDir : Vec2)
    (hveg : s.vegetationOn = true → s.vegetation (i, j) ≤ 1) :
    0 ≤ abrasionAmount s i j windDir ∧
    (PerformAbrasionOnCell s i j windDir).sediments = s.sediments ∧
    (PerformAbrasionOnCell s i j windDir).bedrock (i, j) =
      (if abrasionAmount s i j windDir = 0 then s.bedrock (i, j)
       else s.bedrock (i, j) - abrasionAmount s i j windDir) ∧
    (∀ c : ℤ × ℤ, c ≠ (i, j) →
      (PerformAbrasionOnCell s i j windDir).bedrock c = s.bedrock c) ∧
    (∀ c : ℤ × ℤ, (PerformAbrasionOnCell s i j windDir).bedrock c ≤ s.bedrock c) ∧
    (∀ S : Finset (ℤ × ℤ),
      ∑ c ∈ S, (PerformAbrasionOnCell s i j windDir).bedrock c ≤ ∑ c ∈ S, s.bedrock c) := by
  have hnn := abrasionAmount_nonneg s i j windDir hveg
  by_cases hz : abrasionAmount s i j windDir = 0
  · have hid : PerformAbrasionOnCell s i j windDir = s := by
      simp only [PerformAbrasionOnCell]
      rw [if_pos hz]
    rw [hid, if_pos hz]
    exact ⟨hnn, rfl, rfl, fun _ _ => rfl, fun _ => le_refl _, fun _ => le_refl _⟩
  · have hb : (PerformAbrasionOnCell s i j windDir).bedrock =
        addTo s.bedrock (i, j) (-(abrasionAmount s i j windDir)) := by
      simp only [PerformAbrasionOnCell]
      rw [if_neg hz]
    have hsed : (PerformAbrasionOnCell s i j windDir).sediments = s.sediments := by
      simp only [PerformAbrasionOnCell]
      rw [if_neg hz]
    have hpt : ∀ c : ℤ × ℤ, (PerformAbrasionOnCell s i j windDir).bedrock c ≤ s.bedrock c := by
      intro c
      rw [hb]
      unfold addTo
      by_cases hc : c = (i, j)
      · subst hc
        rw [Function.update_same]
        linarith
      · rw [Function.update_noteq hc]
    refine ⟨hnn, hsed, ?_, ?_, hpt, fun S => Finset.sum_le_sum fun c _ => hpt c⟩
    · rw [if_neg hz, hb]
      unfold addTo
      rw [Function.update_same]
      ring
    · intro c hc
      rw [hb]
      unfold addTo
      rw [Function.update_noteq hc]

/-- Witness for C6 at the flat state (vegetation off), cell (0, 0), unit
eastward wind. -/
theorem c6_abrasion_monotone_witness :
    (exFlat.vegetationOn = true → exFlat.vegetation (0, 0) ≤ 1) ∧
    (0 ≤ abrasionAmount exFlat 0 0 ⟨1, 0⟩ ∧
      (PerformAbrasionOnCell exFlat 0 0 ⟨1, 0⟩).sediments = exFlat.sediments ∧
      (PerformAbrasionOnCell exFlat 0 0 ⟨1, 0⟩).bedrock (0, 0) =
        (if abrasionAmount exFlat 0 0 ⟨1, 0⟩ = 0 then exFlat.bedrock (0, 0)
         else exFlat.bedrock (0, 0) - abrasionAmount exFlat 0 0 ⟨1, 0⟩) ∧
      (∀ c : ℤ × ℤ, c ≠ (0, 0) →
        (PerformAbrasionOnCell exFlat 0 0 ⟨1, 0⟩).bedrock c = exFlat.bedrock c) ∧
      (∀ c : ℤ × ℤ, (PerformAbrasionOnCell exFlat 0 0 ⟨1, 0⟩).bedrock c ≤ exFlat.bedrock c) ∧
      (∀ S : Finset (ℤ × ℤ),
        ∑ c ∈ S, (PerformAbrasionOnCell exFlat 0 0 ⟨1, 0⟩).bedrock c ≤
          ∑ c ∈ S, exFlat.bedrock c)) := by
  have hv : exFlat.vegetationOn = true → exFlat.vegetation (0, 0) ≤ 1 := by
    intro h
    simp [exFlat] at h
  exact ⟨hv, c6_abrasion_monotone exFlat 0 0 ⟨1, 0⟩ hv⟩

theorem reptFold_char (s : DuneState) (p : Vec2) (δ : ℝ) :
    ∀ (l : List ((ℤ × ℤ) × ℝ)) (f : ℤ × ℤ → ℝ) (k : ℕ),
      (l.map Prod.fst).Nodup →
      l.foldl
        (fun (acc : (ℤ × ℤ → ℝ) × ℕ) c =>
          if rReptationSquared < SquaredMagnitude (vsub p (ArrayVertex s c.1.1 c.1.2)) then acc
          else (addTo acc.1 c.1 δ, acc.2 + 1)) (f, k) =
      ((fun c => if c ∈ (l.filter fun c =>
            SquaredMagnitude (vsub p (ArrayVertex s c.1.1 c.1.2)) ≤ rReptationSquared).map Prod.fst
          then f c + δ else f c),
        k + (l.filter fun c =>
            SquaredMagnitude (vsub p (ArrayVertex s c.1.1 c.1.2)) ≤ rReptationSquared).length) := by
  intro l
  induction l with
  | nil =>
    intro f k _
    refine Prod.ext ?_ ?_
    · funext c
      simp [List.filter_nil]
    · simp
  | cons a l ih =>
    intro f k hnd
    rw [List.map_cons, List.nodup_cons] at hnd
    obtain ⟨hna, hnd⟩ := hnd
    rw [List.foldl_cons]
    by_cases hdist : SquaredMagnitude (vsub p (ArrayVertex s a.1.1 a.1.2)) ≤ rReptationSquared
    · rw [if_neg (not_lt.mpr hdist)]
      rw [ih (addTo f a.1 δ) (k + 1) hnd]
      have hfil : (a :: l).filter (fun c =>
            SquaredMagnitude (vsub p (ArrayVertex s c.1.1 c.1.2)) ≤ rReptationSquared) =
          a :: l.filter (fun c =>
            SquaredMagnitude (vsub p (ArrayVertex s c.1.1 c.1.2)) ≤ rReptationSquared) := by
        rw [List.filter_cons, if_pos (by simpa using hdist)]
      rw [hfil]
      refine Prod.ext ?_ ?_
      · funext c
        simp only [List.map_cons, List.mem_cons]
        by_cases hc : c = a.1
        · subst hc
          have hnot : a.1 ∉ (l.filter fun c =>
                SquaredMagnitude (vsub p (ArrayVertex s c.1.1 c.1.2)) ≤ rReptationSquared).map
              Prod.fst :=
            fun hmem => hna (List.map_subset Prod.fst (List.filter_sublist l).subset hmem)
          rw [if_neg (by simpa using hnot), if_pos (Or.inl rfl)]
          simp only [addTo, Function.update_same]
        · have hupd : addTo f a.1 δ c = f c := Function.update_noteq hc _ f
          by_cases hm : c ∈ (l.filter fun c =>
              SquaredMagnitude (vsub p (ArrayVertex s c.1.1 c.1.2)) ≤ rReptationSquared).map
            Prod.fst
          · rw [if_pos hm, if_pos (Or.inr hm), hupd]
          · rw [if_neg hm, if_neg (by simp [hc, hm]), hupd]
      · simp only [List.length_cons]
        omega
    · rw [if_pos (not_le.mp hdist)]
      rw [ih f k hnd]
      have hfil : (a :: l).filter (fun c =>
            SquaredMagnitude (vsub p (ArrayVertex s c.1.1 c.1.2)) ≤ rReptationSquared) =
          l.filter (fun c =>
            SquaredMagnitude (vsub p (ArrayVertex s c.1.1 c.1.2)) ≤ rReptationSquared) := by
        rw [List.filter_cons, if_neg (by simpa using hdist)]
      rw [hfil]

theorem checkFlow_keys_nodup (s : DuneState) (i j : ℤ) (τ : ℝ) :
    ((CheckSedimentFlowRelative s i j τ).map Prod.fst).Nodup := by
  have hn8 : next8.Nodup := by decide
  have hkeys : ((next8.map fun o => ((i + o.1, j + o.2), slopeTo s i j o)).map Prod.fst).Nodup := by
    rw [List.map_map]
    refine List.Nodup.map ?_ hn8
    intro a b hab
    have h1 := congrArg Prod.fst hab
    have h2 := congrArg Prod.snd hab
    simp only [Function.comp_apply] at h1 h2
    exact Prod.ext (by omega) (by omega)
  have hfil : (((next8.map fun o => ((i + o.1, j + o.2), slopeTo s i j o)).filter
        (fun c => τ < c.2)).map Prod.fst).Nodup :=
    hkeys.sublist (List.Sublist.map Prod.fst (List.filter_sublist _))
  have hperm : List.Perm
      (List.insertionSort (fun a b => b.2 ≤ a.2)
        ((next8.map fun o => ((i + o.1, j + o.2), slopeTo s i j o)).filter
          (fun c => τ < c.2)))
      ((next8.map fun o => ((i + o.1, j + o.2), slopeTo s i j o)).filter
        (fun c => τ < c.2)) :=
    List.perm_insertionSort _ _
  exact ((hperm.map Prod.fst).nodup_iff).mpr hfil

theorem selKeys_nodup (s : DuneState) (i j : ℤ) :
    ((reptSelected s i j).map Prod.fst).Nodup :=
  (checkFlow_keys_nodup s i j tanThresholdAngleSediment).sublist
    (List.Sublist.map Prod.fst (List.take_sublist 2 _))

theorem center_not_mem_selKeys (s : DuneState) (i j : ℤ) :
    (i, j) ∉ (reptSelected s i j).map Prod.fst := by
  intro hmem
  obtain ⟨c, hc, hck⟩ := List.mem_map.mp hmem
  have hc2 : c ∈ CheckSedimentFlowRelative s i j tanThresholdAngleSediment :=
    List.take_subset 2 _ hc
  have hc3 : c ∈ (next8.map fun o => ((i + o.1, j + o.2), slopeTo s i j o)).filter
      (fun x => tanThresholdAngleSediment < x.2) :=
    (List.perm_insertionSort _ _).subset hc2
  have hc4 : c ∈ next8.map fun o => ((i + o.1, j + o.2), slopeTo s i j o) :=
    (List.filter_sublist _).subset hc3
  obtain ⟨o, ho, hoc⟩ := List.mem_map.mp hc4
  have hkey : ((i + o.1, j + o.2) : ℤ × ℤ) = (i, j) := (congrArg Prod.fst hoc).trans hck
  have ho1 : o.1 = 0 := by
    have := congrArg Prod.fst hkey
    simp only at this
    omega
  have ho2 : o.2 = 0 := by
    have := congrArg Prod.snd hkey
    simp only at this
    omega
  have : o = ((0 : ℤ), (0 : ℤ)) := Prod.ext ho1 ho2
  rw [this] at ho
  exact absurd ho (by decide)

theorem effKeys_subset_selKeys (s : DuneState) (i j : ℤ) :
    (reptEffective s i j).map Prod.fst ⊆ (reptSelected s i j).map Prod.fst :=
  List.map_subset Prod.fst (List.filter_sublist _).subset

theorem rept_sediments_char (s : DuneState) (i j bounce : ℤ) :
    (PerformReptationOnCell s i j bounce).sediments = fun c =>
      (if c ∈ (reptEffective s i j).map Prod.fst
        then s.sediments c + seAmount s bounce / ((reptSelected s i j).length : ℝ)
        else s.sediments c) -
      (if reptEffective s i j ≠ [] ∧ c = (i, j) then seAmount s bounce else 0) := by
  have hchar := reptFold_char s (ArrayVertex s i j)
    (seAmount s bounce / ((reptSelected s i j).length : ℝ))
    (reptSelected s i j) s.sediments 0 (selKeys_nodup s i j)
  simp only [PerformReptationOnCell, hchar, reptEffective]
  by_cases heff : (reptSelected s i j).filter (fun c =>
      SquaredMagnitude (vsub (ArrayVertex s i j) (ArrayVertex s c.1.1 c.1.2)) ≤
        rReptationSquared) = []
  · rw [if_neg (by
      rintro ⟨-, hpos⟩
      rw [heff] at hpos
      simp at hpos)]
    funext c
    simp only [heff]
    simp
  · have hlen : 0 < ((reptSelected s i j).filter (fun c =>
        SquaredMagnitude (vsub (ArrayVertex s i j) (ArrayVertex s c.1.1 c.1.2)) ≤
          rReptationSquared)).length := List.length_pos.mpr heff
    have hsel : 0 < (reptSelected s i j).length := by
      have := List.length_filter_le (fun c =>
        SquaredMagnitude (vsub (ArrayVertex s i j) (ArrayVertex s c.1.1 c.1.2)) ≤
          rReptationSquared) (reptSelected s i j)
      omega
    rw [if_pos ⟨hsel, by simpa using hlen⟩]
    funext c
    by_cases hc : c = (i, j)
    · subst hc
      have hnotm : ((i, j) : ℤ × ℤ) ∉ ((reptSelected s i j).filter (fun c =>
          SquaredMagnitude (vsub (ArrayVertex s i j) (ArrayVertex s c.1.1 c.1.2)) ≤
            rReptationSquared)).map Prod.fst := by
        intro hmem
        exact center_not_mem_selKeys s i j
          (List.map_subset Prod.fst (List.filter_sublist _).subset hmem)
      simp only [addTo, Function.update_same]
      rw [if_neg hnotm]
      split_ifs with hif
      · ring
      · exact absurd ⟨heff, by simp⟩ hif
    · simp only [addTo]
      rw [Function.update_noteq hc]
      have h0 : (if ((reptSelected s i j).filter (fun c =>
          SquaredMagnitude (vsub (ArrayVertex s i j) (ArrayVertex s c.1.1 c.1.2)) ≤
            rReptationSquared)) ≠ [] ∧ c = (i, j) then seAmount s bounce else 0) = 0 :=
        if_neg fun hh => hc hh.2
      rw [h0, sub_zero]

theorem seAmount_nonneg (s : DuneState) (bounce : ℤ) (hm : 0 ≤ s.matterToMove) :
    0 ≤ seAmount s bounce := by
  simp only [seAmount, lerp, clampI]
  have h1 : (0:ℤ) ≤ max 0 (min 3 bounce) := le_max_left _ _
  have h1' : (0:ℝ) ≤ ((max 0 (min 3 bounce) : ℤ) : ℝ) := by exact_mod_cast h1
  nlinarith [mul_nonneg h1' hm]

/-- C5, amended.  PerformReptationOnCell adds se / n to each selected
neighbor within the reptation radius, subtracts se from the source exactly
when at least one neighbor received sand, and therefore changes the total
sediment mass by ((nEffective / n) - 1) se when nEffective is at least 1 and
by exactly 0 when no selected neighbor is within the radius (the original
claim asserted the formula also in that case, where it would wrongly predict
-se).  The net change is never positive, and it is exactly 0 whenever every
selected neighbor lies within the radius. -/
theorem c5_reptation_mass (s : DuneState) (i j bounce : ℤ) (hm : 0 ≤ s.matterToMove) :
    (∀ c ∈ (reptEffective s i j).map Prod.fst,
      (PerformReptationOnCell s i j bounce).sediments c =
        s.sediments c + seAmount s bounce / ((reptSelected s i j).length : ℝ)) ∧
    ((PerformReptationOnCell s i j bounce).sediments (i, j) =
      s.sediments (i, j) - (if reptEffective s i j = [] then 0 else seAmount s bounce)) ∧
    (∀ S : Finset (ℤ × ℤ), (i, j) ∈ S →
      (∀ c ∈ (reptEffective s i j).map Prod.fst, c ∈ S) →
      ∑ c ∈ S, (PerformReptationOnCell s i j bounce).sediments c - ∑ c ∈ S, s.sediments c =
        (if reptEffective s i j = [] then 0
         else (((reptEffective s i j).length : ℝ) / ((reptSelected s i j).length : ℝ) - 1) *
          seAmount s bounce)) ∧
    (if reptEffective s i j = [] then (0:ℝ)
     else (((reptEffective s i j).length : ℝ) / ((reptSelected s i j).length : ℝ) - 1) *
      seAmount s bounce) ≤ 0 ∧
    (reptEffective s i j = reptSelected s i j →
      (if reptEffective s i j = [] then (0:ℝ)
       else (((reptEffective s i j).length : ℝ) / ((reptSelected s i j).length : ℝ) - 1) *
        seAmount s bounce) = 0) := by
  have hchar := rept_sediments_char s i j bounce
  have hse := seAmount_nonneg s bounce hm
  have hcenter : (i, j) ∉ (reptEffective s i j).map Prod.fst :=
    fun hmem => center_not_mem_selKeys s i j (effKeys_subset_selKeys s i j hmem)
  have heffnodup : ((reptEffective s i j).map Prod.fst).Nodup :=
    (selKeys_nodup s i j).sublist (List.Sublist.map Prod.fst (List.filter_sublist _))
  have hlenle : (reptEffective s i j).length ≤ (reptSelected s i j).length :=
    List.length_filter_le _ _
  refine ⟨?_, ?_, ?_, ?_, ?_⟩
  · intro c hc
    rw [hchar]
    simp only
    rw [if_pos hc, if_neg (by
      rintro ⟨-, hceq⟩
      exact hcenter (hceq ▸ hc))]
    ring
  · rw [hchar]
    simp only
    rw [if_neg hcenter]
    by_cases heff : reptEffective s i j = []
    · rw [if_pos heff, if_neg (by simp [heff])]
    · rw [if_neg heff]
      split_ifs with hif
      · rfl
      · exact absurd ⟨heff, by simp⟩ hif
  · intro S hS hSsub
    have hsplit : ∀ c : ℤ × ℤ, (PerformReptationOnCell s i j bounce).sediments c =
        s.sediments c +
          (if c ∈ (reptEffective s i j).map Prod.fst
            then seAmount s bounce / ((reptSelected s i j).length : ℝ) else 0) -
          (if reptEffective s i j ≠ [] ∧ c = (i, j) then seAmount s bounce else 0) := by
      intro c
      rw [hchar]
      simp only
      by_cases hc : c ∈ (reptEffective s i j).map Prod.fst
      · rw [if_pos hc, if_pos hc]
      · rw [if_neg hc, if_neg hc]
        ring_nf
    have hsum : ∑ c ∈ S, (PerformReptationOnCell s i j bounce).sediments c =
        ∑ c ∈ S, s.sediments c +
          ∑ c ∈ S, (if c ∈ (reptEffective s i j).map Prod.fst
            then seAmount s bounce / ((reptSelected s i j).length : ℝ) else 0) -
          ∑ c ∈ S, (if reptEffective s i j ≠ [] ∧ c = (i, j) then seAmount s bounce else 0) := by
      rw [← Finset.sum_add_distrib, ← Finset.sum_sub_distrib]
      exact Finset.sum_congr rfl fun c _ => hsplit c
    have hindic : ∑ c ∈ S, (if c ∈ (reptEffective s i j).map Prod.fst
        then seAmount s bounce / ((reptSelected s i j).length : ℝ) else 0) =
        ((reptEffective s i j).length : ℝ) *
          (seAmount s bounce / ((reptSelected s i j).length : ℝ)) := by
      have hrw : ∀ c : ℤ × ℤ, (if c ∈ (reptEffective s i j).map Prod.fst
          then seAmount s bounce / ((reptSelected s i j).length : ℝ) else 0) =
          (if c ∈ ((reptEffective s i j).map Prod.fst).toFinset
            then seAmount s bounce / ((reptSelected s i j).length : ℝ) else 0) := by
        intro c
        by_cases hc : c ∈ (reptEffective s i j).map Prod.fst
        · rw [if_pos hc, if_pos (List.mem_toFinset.mpr hc)]
        · rw [if_neg hc, if_neg (fun hmem => hc (List.mem_toFinset.mp hmem))]
      rw [Finset.sum_congr rfl fun c _ => hrw c]
      rw [Finset.sum_ite_mem]
      have hinter : S ∩ ((reptEffective s i j).map Prod.fst).toFinset =
          ((reptEffective s i j).map Prod.fst).toFinset := by
        refine Finset.inter_eq_right.mpr ?_
        intro c hc
        exact hSsub c (List.mem_toFinset.mp hc)
      rw [hinter, Finset.sum_const, List.toFinset_card_of_nodup heffnodup]
      rw [nsmul_eq_mul, List.length_map]
    have hcorr : ∑ c ∈ S, (if reptEffective s i j ≠ [] ∧ c = (i, j)
        then seAmount s bounce else 0) =
        (if reptEffective s i j = [] then 0 else seAmount s bounce) := by
      by_cases heff : reptEffective s i j = []
      · rw [if_pos heff]
        refine Finset.sum_eq_zero fun c _ => ?_
        rw [if_neg (by simp [heff])]
      · rw [if_neg heff]
        have : ∀ c ∈ S, (if reptEffective s i j ≠ [] ∧ c = (i, j)
            then seAmount s bounce else 0) = (if c = (i, j) then seAmount s bounce else 0) := by
          intro c _
          by_cases hc : c = (i, j)
          · rw [if_pos ⟨heff, hc⟩, if_pos hc]
          · rw [if_neg (by simp [hc]), if_neg hc]
        rw [Finset.sum_congr rfl this, Finset.sum_ite_eq' S (i, j) fun _ => seAmount s bounce,
          if_pos hS]
    rw [hsum, hindic, hcorr]
    by_cases heff : reptEffective s i j = []
    · rw [if_pos heff, if_pos heff, heff]
      simp
    · have hselpos : 0 < (reptSelected s i j).length := by
        have := List.length_pos.mpr heff
        omega
      have hn0 : ((reptSelected s i j).length : ℝ) ≠ 0 := by
        exact_mod_cast Nat.pos_iff_ne_zero.mp hselpos
      rw [if_neg heff, if_neg heff]
      field_simp
      ring
  · by_cases heff : reptEffective s i j = []
    · rw [if_pos heff]
    · rw [if_neg heff]
      have hselpos : 0 < (reptSelected s i j).length := by
        have := List.length_pos.mpr heff
        omega
      have hfrac : ((reptEffective s i j).length : ℝ) / ((reptSelected s i j).length : ℝ) ≤ 1 := by
        rw [div_le_one (by exact_mod_cast hselpos)]
        exact_mod_cast hlenle
      have : (((reptEffective s i j).length : ℝ) / ((reptSelected s i j).length : ℝ) - 1) ≤ 0 := by
        linarith
      exact mul_nonpos_of_nonpos_of_nonneg this hse
  · intro hall
    by_cases heff : reptEffective s i j = []
    · rw [if_pos heff]
    · have hselpos : 0 < (reptSelected s i j).length := by
        have := List.length_pos.mpr heff
        omega
      have hn0 : ((reptSelected s i j).length : ℝ) ≠ 0 := by
        exact_mod_cast Nat.pos_iff_ne_zero.mp hselpos
      rw [if_neg heff, hall, div_self hn0]
      ring

theorem exR_flow : CheckSedimentFlowRelative exR 1 1 tanThresholdAngleSediment =
    [(((2 : ℤ), (1 : ℤ)), (2 : ℝ))] := by
  have hH : ∀ a b : ℤ, HeightCell exR a b = exSedR (a, b) := by
    intro a b
    simp [HeightCell, exR]
  have hcs : cellSize exR = 3 := by
    norm_num [cellSize, cellDiagX, exR]
  simp only [CheckSedimentFlowRelative, next8, List.map_cons, List.map_nil]
  norm_num [slopeTo, hH, exSedR, neighborDist, hcs, Prod.ext_iff, tanThresholdAngleSediment,
    List.filter, List.insertionSort, List.orderedInsert]

theorem exR_selected : reptSelected exR 1 1 = [(((2 : ℤ), (1 : ℤ)), (2 : ℝ))] := by
  simp [reptSelected, exR_flow]

theorem exR_effective : reptEffective exR 1 1 = [] := by
  simp only [reptEffective, exR_selected]
  norm_num [ArrayVertex, vsub, SquaredMagnitude, cellDiagX, cellDiagY, exR,
    rReptationSquared, List.filter]

/-- C5, counterexample to the original claim: on the coarse grid exR one
neighbor is selected (n = 1) but lies 3 world units away, beyond the
reptation radius, so the call changes nothing (net mass change 0), while the
claimed formula (nEffective / n - 1) se evaluates to -se, which is
nonzero. -/
theorem c5_counterexample :
    PerformReptationOnCell exR 1 1 1 = exR ∧
    (((reptEffective exR 1 1).length : ℝ) / ((reptSelected exR 1 1).length : ℝ) - 1) *
      seAmount exR 1 ≠ 0 := by
  constructor
  · simp only [PerformReptationOnCell, exR_selected]
    norm_num [ArrayVertex, vsub, SquaredMagnitude, cellDiagX, cellDiagY, exR,
      rReptationSquared, List.foldl]
  · have h2 : seAmount exR 1 = 1 / 15 := by
      norm_num [seAmount, lerp, clampI, exR]
    rw [exR_effective, exR_selected, h2]
    norm_num

/-- Witness for C5 at the flat state, cell (1, 1), bounce 1. -/
theorem c5_reptation_mass_witness :
    (0 ≤ exFlat.matterToMove) ∧
    ((∀ c ∈ (reptEffective exFlat 1 1).map Prod.fst,
      (PerformReptationOnCell exFlat 1 1 1).sediments c =
        exFlat.sediments c + seAmount exFlat 1 / ((reptSelected exFlat 1 1).length : ℝ)) ∧
    ((PerformReptationOnCell exFlat 1 1 1).sediments (1, 1) =
      exFlat.sediments (1, 1) - (if reptEffective exFlat 1 1 = [] then 0 else seAmount exFlat 1)) ∧
    (∀ S : Finset (ℤ × ℤ), (1, 1) ∈ S →
      (∀ c ∈ (reptEffective exFlat 1 1).map Prod.fst, c ∈ S) →
      ∑ c ∈ S, (PerformReptationOnCell exFlat 1 1 1).sediments c - ∑ c ∈ S, exFlat.sediments c =
        (if reptEffective exFlat 1 1 = [] then 0
         else (((reptEffective exFlat 1 1).length : ℝ) / ((reptSelected exFlat 1 1).length : ℝ) - 1) *
          seAmount exFlat 1)) ∧
    (if reptEffective exFlat 1 1 = [] then (0:ℝ)
     else (((reptEffective exFlat 1 1).length : ℝ) / ((reptSelected exFlat 1 1).length : ℝ) - 1) *
      seAmount exFlat 1) ≤ 0 ∧
    (reptEffective exFlat 1 1 = reptSelected exFlat 1 1 →
      (if reptEffective exFlat 1 1 = [] then (0:ℝ)
       else (((reptEffective exFlat 1 1).length : ℝ) / ((reptSelected exFlat 1 1).length : ℝ) - 1) *
        seAmount exFlat 1) = 0)) :=
  ⟨by norm_num [exFlat], c5_reptation_mass exFlat 1 1 1 (by norm_num [exFlat])⟩

theorem magnitude_smul (c : ℝ) (v : Vec2) : Magnitude (smul c v) = |c| * Magnitude v := by
  simp only [Magnitude, SquaredMagnitude, smul]
  rw [show c * v.x * (c * v.x) + c * v.y * (c * v.y) = c ^ 2 * (v.x * v.x + v.y * v.y) by ring]
  rw [Real.sqrt_mul (sq_nonneg c), Real.sqrt_sq_eq_abs]

theorem magnitude_zero : Magnitude ⟨0, 0⟩ = 0 := by
  simp [Magnitude, SquaredMagnitude]

theorem magnitude_normalize_half (w : Vec2) (h : ¬ (Magnitude w < 0.001)) :
    Magnitude (smul 0.5 (Normalize w)) = 1 / 2 := by
  have hm : (0.001 : ℝ) ≤ Magnitude w := not_lt.mp h
  have hpos : 0 < Magnitude w := lt_of_lt_of_le (by norm_num) hm
  have hargpos : 0 < w.x * w.x + w.y * w.y := by
    have := Real.sqrt_pos.mp (by simpa [Magnitude, SquaredMagnitude] using hpos)
    simpa using this
  rw [magnitude_smul]
  have hsq : (Magnitude w) ^ 2 = w.x * w.x + w.y * w.y := by
    simp only [Magnitude, SquaredMagnitude]
    exact Real.sq_sqrt (by positivity)
  have h1 : SquaredMagnitude (Normalize w) = 1 := by
    simp only [SquaredMagnitude, Normalize]
    rw [show w.x / Magnitude w * (w.x / Magnitude w) + w.y / Magnitude w * (w.y / Magnitude w) =
        (w.x * w.x + w.y * w.y) / (Magnitude w) ^ 2 by ring]
    rw [hsq, div_self (ne_of_gt hargpos)]
  have hone : Magnitude (Normalize w) = 1 := by
    rw [show Magnitude (Normalize w) = Real.sqrt (SquaredMagnitude (Normalize w)) from rfl, h1]
    exact Real.sqrt_one
  rw [hone]
  norm_num

theorem vsub_step (p ws : Vec2) (c : ℝ) :
    vsub (vsub p (smul c ws)) ws = vsub p (smul (c + 1) ws) := by
  ext <;> simp [vsub, smul] <;> ring

theorem vsub_cancel (p u : Vec2) : vsub p (vsub p u) = u := by
  ext <;> simp [vsub]

theorem shadow_probe_ne (p ws : Vec2) (c : ℝ) (hws : Magnitude ws = 1 / 2) (hc : 0 < c) :
    vsub p (smul c ws) ≠ p := by
  intro heq
  have h1 : smul c ws = ⟨0, 0⟩ := by
    have hx := congrArg Vec2.x heq
    have hy := congrArg Vec2.y heq
    simp only [vsub, smul] at hx hy
    exact Vec2.ext (by simp only [smul]; linarith) (by simp only [smul]; linarith)
  have h2 : Magnitude (smul c ws) = c / 2 := by
    rw [magnitude_smul, hws, abs_of_pos hc]
    ring
  rw [h1, magnitude_zero] at h2
  have : c / 2 > 0 := by positivity
  linarith

theorem shadow_probe_dist (p ws : Vec2) (c : ℝ) (hws : Magnitude ws = 1 / 2) (hc : 0 ≤ c) :
    Magnitude (vsub p (vsub p (smul c ws))) = c / 2 := by
  rw [vsub_cancel, magnitude_smul, hws, abs_of_nonneg hc]
  ring

theorem shadowGo_run (s : DuneState) (p : Vec2) (hp : ℝ) (ws : Vec2)
    (hws : Magnitude ws = 1 / 2) :
    ∀ (n k : ℕ), n + k = 21 → k ≤ 20 → ∀ (ret : ℝ) (ds : List ℝ) (iters : ℕ),
      ∃ retF : ℝ,
        shadowGo s p hp ws n (vsub p (smul (k : ℝ) ws)) ret ds iters =
          some ⟨retF, ds ++ (List.range (20 - k)).map (fun t => (((k + t : ℕ) : ℝ) + 1) / 2),
            iters + n⟩ := by
  intro n
  induction n with
  | zero =>
    intro k hk hk20
    omega
  | succ m ih =>
    intro k hk hk20 ret ds iters
    simp only [shadowGo]
    rw [vsub_step p ws (k : ℝ)]
    rw [if_neg (shadow_probe_ne p ws ((k : ℝ) + 1) hws (by positivity))]
    rw [shadow_probe_dist p ws ((k : ℝ) + 1) hws (by positivity)]
    by_cases hlast : k = 20
    · subst hlast
      rw [if_pos (by norm_num [rShadow])]
      refine ⟨ret, ?_⟩
      have hm0 : m = 0 := by omega
      subst hm0
      simp
    · have hk19 : k ≤ 19 := by omega
      rw [if_neg (by
        rw [not_lt, rShadow]
        have : (k : ℝ) ≤ 19 := by exact_mod_cast hk19
        linarith)]
      obtain ⟨retF, hrec⟩ := ih (k + 1) (by omega) (by omega)
        (max ret (smoothstep ((Height s (SnapWorld (boxSize s) (vsub p (smul ((k : ℝ) + 1) ws))) - hp) /
          (((k : ℝ) + 1) / 2)) tanThresholdAngleWindShadowMin tanThresholdAngleWindShadowMax))
        (ds ++ [((k : ℝ) + 1) / 2]) (iters + 1)
      refine ⟨retF, ?_⟩
      rw [show (((k + 1 : ℕ) : ℝ)) = (k : ℝ) + 1 by push_cast; ring] at hrec
      rw [hrec]
      have hlist : (ds ++ [((k : ℝ) + 1) / 2]) ++
          (List.range (20 - (k + 1))).map (fun t => (((k + 1 + t : ℕ) : ℝ) + 1) / 2) =
          ds ++ (List.range (20 - k)).map (fun t => (((k + t : ℕ) : ℝ) + 1) / 2) := by
        rw [List.append_assoc]
        congr 1
        rw [show 20 - k = (20 - (k + 1)) + 1 by omega, List.range_succ_eq_map]
        simp only [List.map_cons, List.map_map, List.singleton_append, List.cons.injEq]
        constructor
        · push_cast
          ring
        · refine List.map_congr_left fun t _ => ?_
          simp only [Function.comp_apply]
          push_cast
          ring
      rw [hlist, show iters + 1 + m = iters + (m + 1) by omega]

/-- C10, confirmed.  For every cell and every wind with magnitude at least
0.001 (so that the early return of IsInShadow is not taken), the upwind march
terminates: each body entry moves the probe exactly half a world unit
farther from the start, the probe distances used as divisors are exactly
0.5, 1.0, ..., 10, the loop breaks at its 21st entry once the distance 10.5
exceeds rShadow = 10, and every evaluated quotient has divisor at least 0.5,
so no division by zero occurs and the fuel bound shadowFuel = 21 of the
model never truncates the loop. -/
theorem c10_shadow_termination (s : DuneState) (i j : ℤ) (windDir : Vec2)
    (h : ¬ (Magnitude windDir < 0.001)) :
    ∃ retF : ℝ,
      shadowGo s (ArrayVertex s i j) (Height s (ArrayVertex s i j))
          (smul 0.5 (Normalize windDir)) shadowFuel (ArrayVertex s i j) 0 [] 0 =
        some ⟨retF, (List.range 20).map (fun t : ℕ => ((t : ℝ) + 1) / 2), 21⟩ ∧
      IsInShadow s i j windDir = retF ∧
      (∀ d ∈ (List.range 20).map (fun t : ℕ => ((t : ℝ) + 1) / 2),
        (1 / 2 : ℝ) ≤ d ∧ d ≤ rShadow) := by
  have hws := magnitude_normalize_half windDir h
  obtain ⟨retF, hrun⟩ := shadowGo_run s (ArrayVertex s i j) (Height s (ArrayVertex s i j))
    (smul 0.5 (Normalize windDir)) hws 21 0 (by omega) (by omega) 0 [] 0
  have hstart : vsub (ArrayVertex s i j) (smul ((0 : ℕ) : ℝ) (smul 0.5 (Normalize windDir))) =
      ArrayVertex s i j := by
    ext <;> simp [vsub, smul]
  rw [hstart] at hrun
  have hmap : (List.range (20 - 0)).map (fun t => (((0 + t : ℕ) : ℝ) + 1) / 2) =
      (List.range 20).map (fun t : ℕ => ((t : ℝ) + 1) / 2) := by
    simp only [Nat.sub_zero]
    refine List.map_congr_left fun t _ => ?_
    push_cast
    ring
  rw [hmap] at hrun
  simp only [List.nil_append, Nat.zero_add] at hrun
  refine ⟨retF, by simp only [shadowFuel]; exact hrun, ?_, ?_⟩
  · simp only [IsInShadow]
    rw [if_neg h]
    simp only [shadowFuel] at hrun ⊢
    rw [hrun]
  · intro d hd
    obtain ⟨t, ht, rfl⟩ := List.mem_map.mp hd
    rw [List.mem_range] at ht
    have ht' : (t : ℝ) ≤ 19 := by exact_mod_cast Nat.lt_succ_iff.mp ht
    have ht0 : (0 : ℝ) ≤ (t : ℝ) := by positivity
    constructor
    · linarith
    · rw [rShadow]
      linarith

/-- Witness for C10 at the flat state with unit eastward wind. -/
theorem c10_shadow_termination_witness :
    (¬ (Magnitude ⟨1, 0⟩ < 0.001)) ∧
    (∃ retF : ℝ,
      shadowGo exFlat (ArrayVertex exFlat 0 0) (Height exFlat (ArrayVertex exFlat 0 0))
          (smul 0.5 (Normalize ⟨1, 0⟩)) shadowFuel (ArrayVertex exFlat 0 0) 0 [] 0 =
        some ⟨retF, (List.range 20).map (fun t : ℕ => ((t : ℝ) + 1) / 2), 21⟩ ∧
      IsInShadow exFlat 0 0 ⟨1, 0⟩ = retF ∧
      (∀ d ∈ (List.range 20).map (fun t : ℕ => ((t : ℝ) + 1) / 2),
        (1 / 2 : ℝ) ≤ d ∧ d ≤ rShadow)) := by
  have hmag : Magnitude ⟨1, 0⟩ = 1 := by
    simp [Magnitude, SquaredMagnitude]
  have hng : ¬ (Magnitude (⟨1, 0⟩ : Vec2) < 0.001) := by
    rw [hmag]
    norm_num
  exact ⟨hng, c10_shadow_termination exFlat 0 0 ⟨1, 0⟩ hng⟩

theorem sameShape_refl (s : DuneState) : sameShape s s :=
  ⟨rfl, rfl, rfl, rfl, rfl, rfl, rfl, rfl⟩

theorem sameShape_trans {s t v : DuneState} (h1 : sameShape s t) (h2 : sameShape t v) :
    sameShape s v := by
  obtain ⟨a1, a2, a3, a4, a5, a6, a7, a8⟩ := h1
  obtain ⟨b1, b2, b3, b4, b5, b6, b7, b8⟩ := h2
  exact ⟨b1.trans a1, b2.trans a2, b3.trans a3, b4.trans a4, b5.trans a5, b6.trans a6,
    b7.trans a7, b8.trans a8⟩

theorem sameShape_update_sediments {s t : DuneState} (h : sameShape s t) (f : ℤ × ℤ → ℝ) :
    sameShape s { t with sediments := f } := h

theorem rept_sameShape (s : DuneState) (i j bounce : ℤ) :
    sameShape s (PerformReptationOnCell s i j bounce) := by
  simp only [PerformReptationOnCell]
  split_ifs <;> exact sameShape_refl s

theorem abrade_sameShape (s : DuneState) (i j : ℤ) (w : Vec2) :
    sameShape s (PerformAbrasionOnCell s i j w) := by
  simp only [PerformAbrasionOnCell]
  split_ifs <;> exact sameShape_refl s

theorem hopAbrade_sameShape (u : ℕ → ℝ) (s : DuneState) (r : ℕ) (a b : ℤ) (w : Vec2) :
    sameShape s (hopAbrade u s r a b w).1 := by
  simp only [hopAbrade]
  split_ifs <;> first | exact sameShape_refl s | exact abrade_sameShape s a b w

theorem hopIteration_char (u : ℕ → ℝ) (s : DuneState) (r : ℕ) (pos : Vec2)
    (destI destJ startI startJ : ℤ) (bounce : ℕ)
    (wd : Vec2) (dc : ℤ × ℤ) (s1 : DuneState) (r1 : ℕ)
    (hw : wd = ComputeWindAtCell s destI destJ)
    (hdc : dc = CellInteger s (SnapWorld (boxSize s) (vadd pos wd)))
    (hab : (s1, r1) = hopAbrade u s r dc.1 dc.2 wd) :
    sameShape s (hopIteration u s r pos destI destJ startI startJ bounce).dune ∧
    (hopIteration u s r pos destI destJ startI startJ bounce).destI = dc.1 ∧
    (hopIteration u s r pos destI destJ startI startJ bounce).destJ = dc.2 ∧
    ((hopIteration u s r pos destI destJ startI startJ bounce).deposited = true ↔
      depositConditionSpec s1 dc.1 dc.2 wd (u r1)) ∧
    ((hopIteration u s r pos destI destJ startI startJ bounce).ops =
      if (hopIteration u s r pos destI destJ startI startJ bounce).deposited then
        [SimOp.deposit dc.1 dc.2 s.matterToMove] else []) ∧
    ((hopIteration u s r pos destI destJ startI startJ bounce).deposited = true →
      (hopIteration u s r pos destI destJ startI startJ bounce).dune.sediments dc =
        s1.sediments dc + s.matterToMove ∧
      (hopIteration u s r pos destI destJ startI startJ bounce).bounce = bounce) := by
  have hs1eq : s1 = (hopAbrade u s r dc.1 dc.2 wd).1 := by rw [← hab]
  have hshape1 : sameShape s s1 := by rw [hs1eq]; exact hopAbrade_sameShape u s r dc.1 dc.2 wd
  have hm1 : s1.matterToMove = s.matterToMove := hshape1.2.2.2.2.2.2.1
  rcases hsplit : hopIteration u s r pos destI destJ startI startJ bounce with
    ⟨dune, r2, pos2, dI, dJ, b2, dep, ops⟩
  simp only [hopIteration] at hsplit
  rw [← hw] at hsplit
  rw [← hdc] at hsplit
  rw [← hab] at hsplit
  have hv40 : (0.6 + (if s1.vegetationOn = true then s1.vegetation dc * 0.4 else 0) : ℝ) =
      0.6 + 0.4 * vegAt s1 dc.1 dc.2 := by
    cases hon : s1.vegetationOn <;> simp [vegAt, hon, Prod.mk.eta] <;> ring
  have hv60 : (0.4 + (if s1.vegetationOn = true then s1.vegetation dc * 0.6 else 0) : ℝ) =
      0.4 + 0.6 * vegAt s1 dc.1 dc.2 := by
    cases hon : s1.vegetationOn <;> simp [vegAt, hon, Prod.mk.eta] <;> ring
  rw [hv40, hv60] at hsplit
  simp only [HopOut.mk.injEq] at hsplit
  simp only [depositConditionSpec]
  split_ifs at hsplit with h1 h2 h3 h4
  all_goals obtain ⟨rfl, rfl, rfl, rfl, rfl, rfl, rfl, rfl⟩ := hsplit
  · refine ⟨sameShape_update_sediments hshape1 _, rfl, rfl, ?_, by simp [hm1], ?_⟩
    · simp only [true_iff]
      exact Or.inl h1
    · intro _
      refine ⟨?_, rfl⟩
      simp only [addTo, Function.update_same, hm1]
  · refine ⟨sameShape_update_sediments hshape1 _, rfl, rfl, ?_, by simp [hm1], ?_⟩
    · simp only [true_iff]
      exact Or.inr (Or.inl (by simpa [Prod.mk.eta] using h2))
    · intro _
      refine ⟨?_, rfl⟩
      simp only [addTo, Function.update_same, hm1]
  · refine ⟨sameShape_update_sediments hshape1 _, rfl, rfl, ?_, by simp [hm1], ?_⟩
    · simp only [true_iff]
      exact Or.inr (Or.inr (by simpa [Prod.mk.eta] using h3))
    · intro _
      refine ⟨?_, rfl⟩
      simp only [addTo, Function.update_same, hm1]
  · refine ⟨sameShape_trans hshape1 (rept_sameShape _ _ _ _), rfl, rfl, ?_, by simp, ?_⟩
    · simp only [Bool.false_eq_true, false_iff]
      rintro (hc | hb | hb)
      · exact h1 hc
      · exact h2 (by simpa [Prod.mk.eta] using hb)
      · exact h3 (by simpa [Prod.mk.eta] using hb)
    · intro hq
      exact absurd hq (by simp)
  · refine ⟨hshape1, rfl, rfl, ?_, by simp, ?_⟩
    · simp only [Bool.false_eq_true, false_iff]
      rintro (hc | hb | hb)
      · exact h1 hc
      · exact h2 (by simpa [Prod.mk.eta] using hb)
      · exact h3 (by simpa [Prod.mk.eta] using hb)
    · intro hq
      exact absurd hq (by simp)

/-- C4, confirmed.  In each body entry of the saltation hop loop, with dc the
destination cell resolved from the advanced and wrapped position and s1 the
state after the optional abrasion, matterToMove is deposited at dc and the
loop exits exactly when the drawn p satisfies the specification disjunction:
p falls below the shadow factor, or the destination is sandy and
p < 0.6 + 0.4 v, or the destination is bare and p < 0.4 + 0.6 v, where v is
the destination vegetation when vegetation is on and 0 otherwise. -/
theorem c4_deposition_conditions (u : ℕ → ℝ) (s : DuneState) (r : ℕ) (pos : Vec2)
    (destI destJ startI startJ : ℤ) (bounce : ℕ)
    (wd : Vec2) (dc : ℤ × ℤ) (s1 : DuneState) (r1 : ℕ)
    (hw : wd = ComputeWindAtCell s destI destJ)
    (hdc : dc = CellInteger s (SnapWorld (boxSize s) (vadd pos wd)))
    (hab : (s1, r1) = hopAbrade u s r dc.1 dc.2 wd) :
    ((hopIteration u s r pos destI destJ startI startJ bounce).deposited = true ↔
      depositConditionSpec s1 dc.1 dc.2 wd (u r1)) ∧
    ((hopIteration u s r pos destI destJ startI startJ bounce).ops =
      if (hopIteration u s r pos destI destJ startI startJ bounce).deposited then
        [SimOp.deposit dc.1 dc.2 s.matterToMove] else []) ∧
    ((hopIteration u s r pos destI destJ startI startJ bounce).deposited = true →
      (hopIteration u s r pos destI destJ startI startJ bounce).dune.sediments dc =
        s1.sediments dc + s.matterToMove) ∧
    (∀ fuel : ℕ, (hopIteration u s r pos destI destJ startI startJ bounce).deposited = true →
      hopLoop u startI startJ (fuel + 1) s r pos destI destJ bounce =
        ⟨(hopIteration u s r pos destI destJ startI startJ bounce).dune,
         (hopIteration u s r pos destI destJ startI startJ bounce).r,
         (hopIteration u s r pos destI destJ startI startJ bounce).destI,
         (hopIteration u s r pos destI destJ startI startJ bounce).destJ,
         (hopIteration u s r pos destI destJ startI startJ bounce).bounce, true, 1,
         (hopIteration u s r pos destI destJ startI startJ bounce).ops⟩) := by
  obtain ⟨hsh, hd1, hd2, hiff, hops, hinc⟩ :=
    hopIteration_char u s r pos destI destJ startI startJ bounce wd dc s1 r1 hw hdc hab
  refine ⟨hiff, hops, fun hd => (hinc hd).1, fun fuel hd => ?_⟩
  simp only [hopLoop]
  rw [if_pos hd]

/-- Witness for C4: the first hop from cell (0, 0) of the flat state with
the constant one-half random stream. -/
theorem c4_deposition_conditions_witness :
    (wdEx = ComputeWindAtCell exFlat 0 0 ∧
     dcEx = CellInteger exFlat (SnapWorld (boxSize exFlat) (vadd (ArrayVertex exFlat 0 0) wdEx)) ∧
     (abEx.1, abEx.2) = hopAbrade uHalf exFlat 0 dcEx.1 dcEx.2 wdEx) ∧
    (((hopIteration uHalf exFlat 0 (ArrayVertex exFlat 0 0) 0 0 0 0 0).deposited = true ↔
      depositConditionSpec abEx.1 dcEx.1 dcEx.2 wdEx (uHalf abEx.2)) ∧
    ((hopIteration uHalf exFlat 0 (ArrayVertex exFlat 0 0) 0 0 0 0 0).ops =
      if (hopIteration uHalf exFlat 0 (ArrayVertex exFlat 0 0) 0 0 0 0 0).deposited then
        [SimOp.deposit dcEx.1 dcEx.2 exFlat.matterToMove] else []) ∧
    ((hopIteration uHalf exFlat 0 (ArrayVertex exFlat 0 0) 0 0 0 0 0).deposited = true →
      (hopIteration uHalf exFlat 0 (ArrayVertex exFlat 0 0) 0 0 0 0 0).dune.sediments dcEx =
        abEx.1.sediments dcEx + exFlat.matterToMove) ∧
    (∀ fuel : ℕ,
      (hopIteration uHalf exFlat 0 (ArrayVertex exFlat 0 0) 0 0 0 0 0).deposited = true →
      hopLoop uHalf 0 0 (fuel + 1) exFlat 0 (ArrayVertex exFlat 0 0) 0 0 0 =
        ⟨(hopIteration uHalf exFlat 0 (ArrayVertex exFlat 0 0) 0 0 0 0 0).dune,
         (hopIteration uHalf exFlat 0 (ArrayVertex exFlat 0 0) 0 0 0 0 0).r,
         (hopIteration uHalf exFlat 0 (ArrayVertex exFlat 0 0) 0 0 0 0 0).destI,
         (hopIteration uHalf exFlat 0 (ArrayVertex exFlat 0 0) 0 0 0 0 0).destJ,
         (hopIteration uHalf exFlat 0 (ArrayVertex exFlat 0 0) 0 0 0 0 0).bounce, true, 1,
         (hopIteration uHalf exFlat 0 (ArrayVertex exFlat 0 0) 0 0 0 0 0).ops⟩)) :=
  ⟨⟨rfl, rfl, rfl⟩,
    c4_deposition_conditions uHalf exFlat 0 (ArrayVertex exFlat 0 0) 0 0 0 0 0
      wdEx dcEx abEx.1 abEx.2 rfl rfl rfl⟩

theorem hopLoop_char (u : ℕ → ℝ) (startI startJ : ℤ) :
    ∀ (fuel : ℕ) (s : DuneState) (r : ℕ) (pos : Vec2) (dI dJ : ℤ) (bounce : ℕ),
      sameShape s (hopLoop u startI startJ fuel s r pos dI dJ bounce).dune ∧
      ((hopLoop u startI startJ fuel s r pos dI dJ bounce).deposited = true ∧
        (∃ a b : ℤ, (hopLoop u startI startJ fuel s r pos dI dJ bounce).ops =
          [SimOp.deposit a b s.matterToMove]) ∨
       (hopLoop u startI startJ fuel s r pos dI dJ bounce).deposited = false ∧
        (hopLoop u startI startJ fuel s r pos dI dJ bounce).ops = []) ∧
      (hopLoop u startI startJ fuel s r pos dI dJ bounce).iters ≤ fuel := by
  intro fuel
  induction fuel with
  | zero =>
    intro s r pos dI dJ bounce
    exact ⟨sameShape_refl s, Or.inr ⟨rfl, rfl⟩, le_refl 0⟩
  | succ f ih =>
    intro s r pos dI dJ bounce
    obtain ⟨hsh, hd1, hd2, hiff, hops, hinc⟩ :=
      hopIteration_char u s r pos dI dJ startI startJ bounce _ _ _ _ rfl rfl rfl
    simp only [hopLoop]
    by_cases hd : (hopIteration u s r pos dI dJ startI startJ bounce).deposited = true
    · rw [if_pos hd]
      refine ⟨hsh, Or.inl ⟨rfl, ?_⟩, by dsimp only; omega⟩
      rw [hops, if_pos hd]
      exact ⟨_, _, rfl⟩
    · rw [if_neg hd]
      obtain ⟨ihs, ihd, ihi⟩ := ih (hopIteration u s r pos dI dJ startI startJ bounce).dune
        (hopIteration u s r pos dI dJ startI startJ bounce).r
        (hopIteration u s r pos dI dJ startI startJ bounce).pos
        (hopIteration u s r pos dI dJ startI startJ bounce).destI
        (hopIteration u s r pos dI dJ startI startJ bounce).destJ
        (hopIteration u s r pos dI dJ startI startJ bounce).bounce
      have hopsnil : (hopIteration u s r pos dI dJ startI startJ bounce).ops = [] := by
        rw [hops, if_neg hd]
      have hmeq : (hopIteration u s r pos dI dJ startI startJ bounce).dune.matterToMove =
          s.matterToMove := hsh.2.2.2.2.2.2.1
      refine ⟨sameShape_trans hsh ihs, ?_, by dsimp only; omega⟩
      rw [hopsnil]
      simp only [List.nil_append]
      rcases ihd with ⟨hdep, a, b, hops2⟩ | ⟨hdep, hops2⟩
      · exact Or.inl ⟨hdep, a, b, by rw [hops2, hmeq]⟩
      · exact Or.inr ⟨hdep, hops2⟩

theorem eventLift_char (u : ℕ → ℝ) (s : DuneState) (r : ℕ) (sI sJ : ℤ) :
    ∃ dep : List SimOp,
      ((eventLift u s r sI sJ).ops.filter SimOp.isLiftDep =
        SimOp.lift sI sJ s.matterToMove :: dep) ∧
      (dep = [] ∨ ∃ a b : ℤ, dep = [SimOp.deposit a b s.matterToMove]) ∧
      (dep = [] →
        (((eventLift u s r sI sJ).ops.filter SimOp.isLiftDep).map SimOp.massDelta).sum =
          -s.matterToMove) ∧
      (dep ≠ [] →
        (((eventLift u s r sI sJ).ops.filter SimOp.isLiftDep).map SimOp.massDelta).sum = 0) ∧
      (eventLift u s r sI sJ).iters ≤ MAX_BOUNCE ∧
      (eventLift u s r sI sJ).ops.countP SimOp.isEventStart = 1 ∧
      (eventLift u s r sI sJ).ops.countP SimOp.isStabilizeBedrockAll = 0 ∧
      sameShape s (eventLift u s r sI sJ).dune := by
  obtain ⟨hsh, hdep, hiters⟩ := hopLoop_char u sI sJ MAX_BOUNCE
    { s with sediments := addTo s.sediments (sI, sJ) (-s.matterToMove) } r
    (ArrayVertex { s with sediments := addTo s.sediments (sI, sJ) (-s.matterToMove) } sI sJ)
    sI sJ 0
  have hs1 : sameShape s { s with sediments := addTo s.sediments (sI, sJ) (-s.matterToMove) } :=
    sameShape_update_sediments (sameShape_refl s) _
  have hmm : ({ s with sediments := addTo s.sediments (sI, sJ) (-s.matterToMove) } :
      DuneState).matterToMove = s.matterToMove := rfl
  rw [hmm] at hdep
  have hshape2 : sameShape s (eventLift u s r sI sJ).dune := by
    simp only [eventLift]
    split_ifs with hrept
    · exact sameShape_trans (sameShape_trans hs1 hsh) (rept_sameShape _ _ _ _)
    · exact sameShape_trans hs1 hsh
  simp only [eventLift]
  rcases hdep with ⟨hflag, a, b, hops⟩ | ⟨hflag, hops⟩
  · refine ⟨[SimOp.deposit a b s.matterToMove], ?_, Or.inr ⟨a, b, rfl⟩,
      fun hc => absurd hc (by simp), fun _ => ?_, hiters, ?_, ?_, hshape2⟩
    · rw [hops]
      simp [List.filter_cons, List.filter_append, SimOp.isLiftDep]
    · rw [hops]
      simp [List.filter_cons, List.filter_append, SimOp.isLiftDep, SimOp.massDelta]
      try ring
    · rw [hops]
      simp [List.countP_cons, List.countP_append, SimOp.isEventStart]
    · rw [hops]
      simp [List.countP_cons, List.countP_append, SimOp.isStabilizeBedrockAll]
  · refine ⟨[], ?_, Or.inl rfl, fun _ => ?_, fun hc => absurd rfl hc, hiters, ?_, ?_, hshape2⟩
    · rw [hops]
      simp [List.filter_cons, List.filter_append, SimOp.isLiftDep]
    · rw [hops]
      simp [List.filter_cons, List.filter_append, SimOp.isLiftDep, SimOp.massDelta]
      try ring
    · rw [hops]
      simp [List.countP_cons, List.countP_append, SimOp.isEventStart]
    · rw [hops]
      simp [List.countP_cons, List.countP_append, SimOp.isStabilizeBedrockAll]

theorem bilinear_const (s : DuneState) (c : ℝ) (p : Vec2) :
    GetValueBilinear s (fun _ => c) p = c := by
  simp only [GetValueBilinear]
  ring

theorem height_flat (p : Vec2) : Height exFlat p = 1 := by
  have hb : exFlat.bedrock = fun _ => (0 : ℝ) := rfl
  have hs : exFlat.sediments = fun _ => (1 : ℝ) := rfl
  rw [Height, hb, hs, bilinear_const, bilinear_const]
  norm_num

theorem shadowGo_flat (p ws : Vec2) :
    ∀ (fuel : ℕ) (pShadow : Vec2) (ds : List ℝ) (iters : ℕ) (r : ShadowOut),
      shadowGo exFlat p 1 ws fuel pShadow 0 ds iters = some r → r.ret = 0 := by
  intro fuel
  induction fuel with
  | zero =>
    intro pShadow ds iters r h
    simp [shadowGo] at h
  | succ f ih =>
    intro pShadow ds iters r h
    simp only [shadowGo] at h
    rw [height_flat] at h
    split_ifs at h with h1 h2
    · simp only [Option.some.injEq] at h
      rw [← h]
    · simp only [Option.some.injEq] at h
      rw [← h]
    · have hz : (1 - 1 : ℝ) / Magnitude (vsub p (vsub pShadow ws)) = 0 := by
        norm_num
      rw [hz] at h
      have hsm : smoothstep 0 tanThresholdAngleWindShadowMin tanThresholdAngleWindShadowMax = 0 := by
        norm_num [smoothstep, clamp01, clamp, tanThresholdAngleWindShadowMin,
          tanThresholdAngleWindShadowMax]
      rw [hsm, max_self] at h
      exact ih _ _ _ _ h

theorem isInShadow_flat (i j : ℤ) (w : Vec2) : IsInShadow exFlat i j w = 0 := by
  simp only [IsInShadow]
  split_ifs with h
  · rfl
  · rw [height_flat]
    rcases hres : shadowGo exFlat (ArrayVertex exFlat i j) 1 (smul 0.5 (Normalize w))
        shadowFuel (ArrayVertex exFlat i j) 0 [] 0 with _ | r
    · simp [hres]
    · simp only [hres]
      exact shadowGo_flat _ _ _ _ _ _ _ hres

/-- C3, confirmed.  A saltation event that passes the three lift checks
(nonempty source, shadow retention, vegetation retention) logs exactly one
lift of matterToMove at the source; its hop loop makes at most
MAX_BOUNCE = 3 body entries; the only other lift/deposit operation it can
log is a single deposit of matterToMove, and when no deposition condition is
met there is none, so the lift/deposit operations of the event sum to
exactly -matterToMove in that case and to exactly 0 when a deposit
occurs. -/
theorem c3_saltation_mass (u : ℕ → ℝ) (ir : ℕ → ℕ) (s : DuneState) (r0 : ℕ) (sI sJ : ℤ)
    (hsI : sI = eventStartI ir s r0) (hsJ : sJ = eventStartJ ir s r0)
    (hsed : 0 < s.sediments (sI, sJ))
    (hshadow : ¬ (u (r0 + 2) < IsInShadow s sI sJ (ComputeWindAtCell s sI sJ)))
    (hveg : s.vegetationOn = true → ¬ (u (r0 + 3) < s.vegetation (sI, sJ))) :
    ∃ dep : List SimOp,
      ((SimulationStepWorldSpace u ir s r0).ops.filter SimOp.isLiftDep =
        SimOp.lift sI sJ s.matterToMove :: dep) ∧
      (dep = [] ∨ ∃ a b : ℤ, dep = [SimOp.deposit a b s.matterToMove]) ∧
      (dep = [] →
        (((SimulationStepWorldSpace u ir s r0).ops.filter SimOp.isLiftDep).map
          SimOp.massDelta).sum = -s.matterToMove) ∧
      (dep ≠ [] →
        (((SimulationStepWorldSpace u ir s r0).ops.filter SimOp.isLiftDep).map
          SimOp.massDelta).sum = 0) ∧
      (SimulationStepWorldSpace u ir s r0).iters ≤ MAX_BOUNCE := by
  subst hsI hsJ
  simp only [SimulationStepWorldSpace]
  rw [if_neg (not_le.mpr hsed), if_neg hshadow]
  by_cases hon : s.vegetationOn
  · rw [if_pos hon, show r0 + 2 + 1 = r0 + 3 from rfl, if_neg (hveg hon)]
    obtain ⟨dep, h1, h2, h3, h4, h5, h6, h7, h8⟩ := eventLift_char u s (r0 + 2 + 2)
      (eventStartI ir s r0) (eventStartJ ir s r0)
    exact ⟨dep, h1, h2, h3, h4, h5⟩
  · rw [if_neg hon]
    obtain ⟨dep, h1, h2, h3, h4, h5, h6, h7, h8⟩ := eventLift_char u s (r0 + 2 + 1)
      (eventStartI ir s r0) (eventStartJ ir s r0)
    exact ⟨dep, h1, h2, h3, h4, h5⟩

/-- Witness for C3: an event on the flat state with constant random streams;
the start cell is (1, 1), the shadow factor of a flat terrain is 0 and
vegetation is off, so the lift checks pass. -/
theorem c3_saltation_mass_witness :
    ((1 : ℤ) = eventStartI irOne exFlat 0 ∧ (1 : ℤ) = eventStartJ irOne exFlat 0 ∧
      0 < exFlat.sediments (1, 1) ∧
      ¬ (uHalf 2 < IsInShadow exFlat 1 1 (ComputeWindAtCell exFlat 1 1)) ∧
      (exFlat.vegetationOn = true → ¬ (uHalf 3 < exFlat.vegetation (1, 1)))) ∧
    (∃ dep : List SimOp,
      ((SimulationStepWorldSpace uHalf irOne exFlat 0).ops.filter SimOp.isLiftDep =
        SimOp.lift 1 1 exFlat.matterToMove :: dep) ∧
      (dep = [] ∨ ∃ a b : ℤ, dep = [SimOp.deposit a b exFlat.matterToMove]) ∧
      (dep = [] →
        (((SimulationStepWorldSpace uHalf irOne exFlat 0).ops.filter SimOp.isLiftDep).map
          SimOp.massDelta).sum = -exFlat.matterToMove) ∧
      (dep ≠ [] →
        (((SimulationStepWorldSpace uHalf irOne exFlat 0).ops.filter SimOp.isLiftDep).map
          SimOp.massDelta).sum = 0) ∧
      (SimulationStepWorldSpace uHalf irOne exFlat 0).iters ≤ MAX_BOUNCE) := by
  have h1 : (1 : ℤ) = eventStartI irOne exFlat 0 := by
    norm_num [eventStartI, irOne, exFlat]
  have h2 : (1 : ℤ) = eventStartJ irOne exFlat 0 := by
    norm_num [eventStartJ, irOne, exFlat]
  have h3 : 0 < exFlat.sediments (1, 1) := by norm_num [exFlat]
  have h4 : ¬ (uHalf 2 < IsInShadow exFlat 1 1 (ComputeWindAtCell exFlat 1 1)) := by
    rw [isInShadow_flat]
    norm_num [uHalf]
  have h5 : exFlat.vegetationOn = true → ¬ (uHalf 3 < exFlat.vegetation (1, 1)) := by
    intro hc
    simp [exFlat] at hc
  exact ⟨⟨h1, h2, h3, h4, h5⟩, c3_saltation_mass uHalf irOne exFlat 0 1 1 h1 h2 h3 h4 h5⟩

theorem event_char (u : ℕ → ℝ) (ir : ℕ → ℕ) (s : DuneState) (r0 : ℕ) :
    (SimulationStepWorldSpace u ir s r0).ops.countP SimOp.isEventStart = 1 ∧
    (SimulationStepWorldSpace u ir s r0).ops.countP SimOp.isStabilizeBedrockAll = 0 ∧
    sameShape s (SimulationStepWorldSpace u ir s r0).dune := by
  simp only [SimulationStepWorldSpace]
  split_ifs with h1 h2 h3 h4
  · exact ⟨by simp [List.countP_cons, SimOp.isEventStart],
      by simp [List.countP_cons, SimOp.isStabilizeBedrockAll], sameShape_refl s⟩
  · exact ⟨by simp [List.countP_cons, SimOp.isEventStart, SimOp.isStabilizeBedrockAll],
      by simp [List.countP_cons, SimOp.isStabilizeBedrockAll], sameShape_refl s⟩
  · exact ⟨by simp [List.countP_cons, SimOp.isEventStart, SimOp.isStabilizeBedrockAll],
      by simp [List.countP_cons, SimOp.isStabilizeBedrockAll], sameShape_refl s⟩
  · obtain ⟨dep, g1, g2, g3, g4, g5, g6, g7, g8⟩ := eventLift_char u s (r0 + 2 + 2)
      (eventStartI ir s r0) (eventStartJ ir s r0)
    exact ⟨g6, g7, g8⟩
  · obtain ⟨dep, g1, g2, g3, g4, g5, g6, g7, g8⟩ := eventLift_char u s (r0 + 2 + 1)
      (eventStartI ir s r0) (eventStartJ ir s r0)
    exact ⟨g6, g7, g8⟩

theorem endStep_char (d : DuneState) :
    (EndSimulationStep d).1.simulationStepCount = d.simulationStepCount + 1 ∧
    ((EndSimulationStep d).2.countP SimOp.isStabilizeBedrockAll =
      if (d.simulationStepCount + 1) % 5 = 0 ∧ d.abrasionOn = true then 1 else 0) ∧
    (EndSimulationStep d).2.countP SimOp.isEventStart = 0 := by
  by_cases hc5 : (d.simulationStepCount + 1) % 5 = 0
  · by_cases hab : d.abrasionOn = true
    · simp only [EndSimulationStep]
      rw [if_pos hc5, if_pos hab, if_pos ⟨hc5, hab⟩]
      exact ⟨rfl, by simp [List.countP_cons, SimOp.isStabilizeBedrockAll],
        by simp [List.countP_cons, SimOp.isEventStart]⟩
    · simp only [EndSimulationStep]
      rw [if_pos hc5, if_neg hab, if_neg (by
        rintro ⟨-, hc⟩
        exact hab hc)]
      exact ⟨rfl, by simp, by simp⟩
  · simp only [EndSimulationStep]
    rw [if_neg hc5, if_neg (by
      rintro ⟨hc, -⟩
      exact hc5 hc)]
    exact ⟨rfl, by simp, by simp⟩

theorem step_fold (u : ℕ → ℝ) (ir : ℕ → ℕ) :
    ∀ (l : List ℕ) (acc : StepOut),
      ((l.foldl (fun (acc : StepOut) _ =>
          let e := SimulationStepWorldSpace u ir acc.dune acc.r
          ⟨e.dune, e.r, acc.ops ++ e.ops⟩) acc).ops.countP SimOp.isEventStart =
        acc.ops.countP SimOp.isEventStart + l.length) ∧
      ((l.foldl (fun (acc : StepOut) _ =>
          let e := SimulationStepWorldSpace u ir acc.dune acc.r
          ⟨e.dune, e.r, acc.ops ++ e.ops⟩) acc).ops.countP SimOp.isStabilizeBedrockAll =
        acc.ops.countP SimOp.isStabilizeBedrockAll) ∧
      sameShape acc.dune ((l.foldl (fun (acc : StepOut) _ =>
          let e := SimulationStepWorldSpace u ir acc.dune acc.r
          ⟨e.dune, e.r, acc.ops ++ e.ops⟩) acc).dune) := by
  intro l
  induction l with
  | nil =>
    intro acc
    exact ⟨by simp, rfl, sameShape_refl _⟩
  | cons a l ihl =>
    intro acc
    simp only [List.foldl_cons]
    obtain ⟨e1, e2, e3⟩ := event_char u ir acc.dune acc.r
    obtain ⟨f1, f2, f3⟩ := ihl ⟨(SimulationStepWorldSpace u ir acc.dune acc.r).dune,
      (SimulationStepWorldSpace u ir acc.dune acc.r).r,
      acc.ops ++ (SimulationStepWorldSpace u ir acc.dune acc.r).ops⟩
    refine ⟨?_, ?_, sameShape_trans e3 f3⟩
    · rw [f1]
      simp only [List.countP_append, e1, List.length_cons]
      omega
    · rw [f2]
      simp only [List.countP_append, e2]
      omega

/-- C7, confirmed.  One call of SimulationStepMultiThreadAtomic performs
exactly nx ny saltation events (the two nested loops never read their
indices) and then calls EndSimulationStep; EndSimulationStep increments the
step counter and invokes StabilizeBedrockAll exactly when the incremented
counter is a multiple of 5 and abrasion is on; otherwise no bedrock
stabilization runs at the end of the step.  The OpenMP dispatch is modelled
sequentially; event counts and the counter do not depend on the order. -/
theorem c7_step_driver (u : ℕ → ℝ) (ir : ℕ → ℕ) (s : DuneState) (r0 : ℕ) :
    (SimulationStepMultiThreadAtomic u ir s r0).ops.countP SimOp.isEventStart = s.nx * s.ny ∧
    (SimulationStepMultiThreadAtomic u ir s r0).dune.simulationStepCount =
      s.simulationStepCount + 1 ∧
    ((SimulationStepMultiThreadAtomic u ir s r0).ops.countP SimOp.isStabilizeBedrockAll =
      if (s.simulationStepCount + 1) % 5 = 0 ∧ s.abrasionOn = true then 1 else 0) := by
  obtain ⟨f1, f2, f3⟩ := step_fold u ir (List.range (s.nx * s.ny)) ⟨s, r0, []⟩
  obtain ⟨g1, g2, g3⟩ := endStep_char ((List.range (s.nx * s.ny)).foldl
    (fun (acc : StepOut) _ =>
      let e := SimulationStepWorldSpace u ir acc.dune acc.r
      ⟨e.dune, e.r, acc.ops ++ e.ops⟩) ⟨s, r0, []⟩).dune
  have hcnt : ((List.range (s.nx * s.ny)).foldl
      (fun (acc : StepOut) _ =>
        let e := SimulationStepWorldSpace u ir acc.dune acc.r
        ⟨e.dune, e.r, acc.ops ++ e.ops⟩) ⟨s, r0, []⟩).dune.simulationStepCount =
      s.simulationStepCount := f3.2.2.2.2.2.2.2
  have habr : ((List.range (s.nx * s.ny)).foldl
      (fun (acc : StepOut) _ =>
        let e := SimulationStepWorldSpace u ir acc.dune acc.r
        ⟨e.dune, e.r, acc.ops ++ e.ops⟩) ⟨s, r0, []⟩).dune.abrasionOn = s.abrasionOn :=
    f3.2.2.2.2.2.1
  simp only [SimulationStepMultiThreadAtomic]
  refine ⟨?_, ?_, ?_⟩
  · simp only [List.countP_append, f1, g3, List.length_range]
    simp
  · rw [g1, hcnt]
  · simp only [List.countP_append, f2, g2, hcnt, habr]
    simp

end

end Desertscape
